import Mathlib

/-!
DNS-SD publisher (`dnssd.go`): TXT record builder, instance name resolver and the
event loop of the publisher.

A shallow embedding of the system-independent DNS-SD publisher code.

* A Go `string` is an immutable byte sequence and `len` counts bytes, so strings
  are lists of bytes (`GoString`).
* Go `int` values are mathematical integers (`Int`) in the range `IsGoInt`. The
  lengths computed by `AddPDL` and `instance` cannot overflow; the width of `int`
  matters for the number of decimal digits `%d` can print and for `suffix++` in
  the event loop, which wraps around (`GoInt.wrap`).
* Methods with a pointer receiver that mutate the receiver return the new value.
* A Go run-time panic (slice bounds out of range, index out of range) is the
  result `none`.
* The loop of `goroutine` is a transition function on its state, one step for each
  case its `select` takes; the choice `select` makes among the cases that can
  proceed is a relation (`goroutine.select`). Logging is left out.
-/

set_option autoImplicit false
set_option maxRecDepth 20000

/-! ## Strings -/

/-- A Go `string`: a sequence of bytes. -/
abbrev GoString := List UInt8

/-- The bytes (UTF-8) of a string literal of the source. -/
def GoString.ofString (s : String) : GoString := s.toUTF8.data.toList

/-- The Go slice expression `s[:hi]`. It panics unless `0 <= hi <= len(s)`. -/
def GoString.sliceTo (s : GoString) (hi : Int) : Option GoString :=
  if 0 ≤ hi ∧ hi ≤ (s.length : Int) then some (s.take hi.toNat) else none

/-- The loop of `strings.LastIndexByte`: `for i := n - 1; i >= 0; i--`, returning the
first `i` met with `s[i] == c`, and `-1` when the loop runs out. The argument is
`i + 1`, the number of positions still to visit. -/
def strings.LastIndexByte.loop (s : GoString) (c : UInt8) : Nat → Int
  | 0 => -1
  | i + 1 => if s[i]? = some c then (i : Int) else strings.LastIndexByte.loop s c i

/-- Go standard library `strings.LastIndexByte(s, c)`: the index of the last
instance of `c` in `s`, or `-1` if `c` is not present in `s`. -/
def strings.LastIndexByte (s : GoString) (c : UInt8) : Int :=
  strings.LastIndexByte.loop s c s.length

/-- The values of the Go type `int` (64 bits wide at most). -/
def IsGoInt (n : Int) : Prop := -2 ^ 63 ≤ n ∧ n < 2 ^ 63

instance (n : Int) : Decidable (IsGoInt n) := by
  unfold IsGoInt; infer_instance

/-- The verb `%d` of `fmt.Sprintf` applied to an `int`: decimal digits, most
significant first, preceded by `-` for a negative number. -/
def fmt.Sprintf_d : Int → GoString
  | Int.ofNat m => (Nat.toDigits 10 m).map Char.toUInt8
  | Int.negSucc m => 45 :: (Nat.toDigits 10 (m + 1)).map Char.toUInt8

/-! ## TXT records -/

/-- A single TXT record item, `Key=Value`; `URL` marks an URL whose hostname must
be adjusted. -/
structure DNSSdTxtItem where
  Key : GoString
  Value : GoString
  URL : Bool
  deriving DecidableEq

/-- A TXT record. -/
abbrev DNSSdTxtRecord := List DNSSdTxtItem

/-- `Add` adds a regular (non-URL) item to the record. -/
def DNSSdTxtRecord.Add (txt : DNSSdTxtRecord) (key value : GoString) : DNSSdTxtRecord :=
  txt ++ [DNSSdTxtItem.mk key value false]

/-- `AddURL` adds an URL item to the record. -/
def DNSSdTxtRecord.AddURL (txt : DNSSdTxtRecord) (key value : GoString) : DNSSdTxtRecord :=
  txt ++ [DNSSdTxtItem.mk key value true]

/-- The local `max` of `AddPDL`: `max := 255 - len(key) - 1`, the space left for
the value. -/
def DNSSdTxtRecord.AddPDL.max (key : GoString) : Int :=
  255 - (key.length : Int) - 1

/-- `AddPDL` adds a PDL list to the record, cut at a comma when `key=value` would
exceed 255 bytes. -/
def DNSSdTxtRecord.AddPDL (txt : DNSSdTxtRecord) (key value : GoString) :
    Option DNSSdTxtRecord :=
  let max := DNSSdTxtRecord.AddPDL.max key
  if max ≥ (value.length : Int) then
    some (txt.Add key value)
  else if max ≤ 0 then
    some txt
  else
    match value.sliceTo (max + 1) with
    | none => none
    | some value1 =>
      let i := strings.LastIndexByte value1 44
      if i < 0 then
        some txt
      else
        match value1.sliceTo i with
        | none => none
        | some value2 => some (txt.Add key value2)

/-- `IfNotEmpty` adds the item if its value is not empty, and tells whether it did. -/
def DNSSdTxtRecord.IfNotEmpty (txt : DNSSdTxtRecord) (key value : GoString) :
    DNSSdTxtRecord × Bool :=
  if value ≠ [] then (txt.Add key value, true) else (txt, false)

/-- `URLIfNotEmpty` works as `IfNotEmpty`, but for URLs. -/
def DNSSdTxtRecord.URLIfNotEmpty (txt : DNSSdTxtRecord) (key value : GoString) :
    DNSSdTxtRecord × Bool :=
  if value ≠ [] then (txt.AddURL key value, true) else (txt, false)

/-- The wire form of one item: `[]byte(item.Key + "=" + item.Value)`. -/
def DNSSdTxtItem.bytes (item : DNSSdTxtItem) : GoString :=
  item.Key ++ GoString.ofString "=" ++ item.Value

/-- The loop of `export`: `for i := len(txt) - 1; i >= 0; i--`, appending the wire
form of `txt[i]` to `exported`. The argument is `i + 1`. -/
def DNSSdTxtRecord.export.loop (txt : DNSSdTxtRecord) :
    Nat → List GoString → Option (List GoString)
  | 0, exported => some exported
  | i + 1, exported =>
    match txt[i]? with
    | none => none
    | some item => DNSSdTxtRecord.export.loop txt i (exported ++ [item.bytes])

/-- `export` exports the record into Avahi format, in reverse order. -/
def DNSSdTxtRecord.export (txt : DNSSdTxtRecord) : Option (List GoString) :=
  DNSSdTxtRecord.export.loop txt txt.length []

/-! ## Instance names -/

/-- The two fields of the persistent device state the publisher uses. -/
structure DevState where
  DNSSdName : GoString
  DNSSdOverride : GoString
  deriving DecidableEq

/-- The part of `DNSSdPublisher` that `instance` reads. -/
structure DNSSdPublisher where
  DevState : DevState

/-- The constant `MaxDNSSDName` of `instance`. -/
def MaxDNSSDName : Int := 63

/-- The `switch` of `instance`: the name to start from and the suffix text. -/
def DNSSdPublisher.instance.parts (publisher : DNSSdPublisher) (suffix : Int) :
    GoString × GoString :=
  if suffix ≠ 0 then
    (publisher.DevState.DNSSdName,
      GoString.ofString " (USB " ++ fmt.Sprintf_d suffix ++ GoString.ofString ")")
  else if publisher.DevState.DNSSdName = publisher.DevState.DNSSdOverride then
    (publisher.DevState.DNSSdName, GoString.ofString " (USB)")
  else
    (publisher.DevState.DNSSdOverride, [])

/-- `instance` builds the service instance name with the optional
collision-resolution suffix. -/
def DNSSdPublisher.instance (publisher : DNSSdPublisher) (suffix : Int) : Option GoString :=
  let name := (DNSSdPublisher.instance.parts publisher suffix).1
  let strSuffix := (DNSSdPublisher.instance.parts publisher suffix).2
  if (name.length : Int) + (strSuffix.length : Int) > MaxDNSSDName then
    match name.sliceTo (MaxDNSSDName - (strSuffix.length : Int)) with
    | none => none
    | some name1 => some (name1 ++ strSuffix)
  else
    some (name ++ strSuffix)

/-! ## The event loop -/

/-- The type `DNSSdStatus`, an `int`; a value outside of the four constants is an
unknown status. -/
abbrev DNSSdStatus := Int

/-- `DNSSdNoStatus`: the status is not known (yet). -/
def DNSSdNoStatus : DNSSdStatus := 0

/-- `DNSSdCollision`: instance name collision. -/
def DNSSdCollision : DNSSdStatus := 1

/-- `DNSSdFailure`: publisher failure with any other reason. -/
def DNSSdFailure : DNSSdStatus := 2

/-- `DNSSdSuccess`: successful status. -/
def DNSSdSuccess : DNSSdStatus := 3

/-- Arithmetic on a 64-bit Go `int` wraps around on overflow (two's complement). -/
def GoInt.wrap (n : Int) : Int := (n + 2 ^ 63) % 2 ^ 64 - 2 ^ 63

/-- The case of the `select` statement of `goroutine` that proceeds in one iteration:
`<-publisher.fin`, `status := <-publisher.sysdep.Chan()` or `<-timer.C`. -/
inductive goroutine.Event where
  | fin
  | status (status : DNSSdStatus)
  | timer
  deriving DecidableEq

/-- The state of `goroutine` between two iterations of its loop: the publisher
(`publisher.DevState` is the persistent state held in memory), the locals `suffix` and
`instance` (here `inst`), the instance name the current backend `publisher.sysdep` was
created with, and what the loop has done so far: the numbers of `DevState.Save()`,
`sysdep.Halt()`, `newDnssdSysdep` and `timer.Reset` calls, whether the timer is
ticking, and whether the loop has returned. -/
structure goroutine.State where
  publisher : DNSSdPublisher
  suffix : Int
  inst : GoString
  sysdep : GoString
  saves : Nat
  halts : Nat
  starts : Nat
  resets : Nat
  timerArmed : Bool
  returned : Bool

/-- The local `err` of `goroutine`: declared `var err error` and never assigned. -/
def goroutine.err : Option GoString := none

/-- The `switch status` of `goroutine`: the new state and the flag `fail`. -/
def goroutine.onStatus (st : goroutine.State) (status : DNSSdStatus) :
    goroutine.State × Bool :=
  if status = DNSSdSuccess then
    if st.inst ≠ st.publisher.DevState.DNSSdOverride then
      ({ st with
          publisher := DNSSdPublisher.mk
            (DevState.mk st.publisher.DevState.DNSSdName st.inst)
          saves := st.saves + 1 }, false)
    else
      (st, false)
  else if status = DNSSdCollision then
    -- suffix++, then fallthrough into the DNSSdFailure case
    ({ st with suffix := GoInt.wrap (st.suffix + 1), halts := st.halts + 1 }, true)
  else if status = DNSSdFailure then
    ({ st with halts := st.halts + 1 }, true)
  else
    (st, false)

/-- The case `<-timer.C` of `goroutine`: the name is recomputed with the current
`suffix` and a new backend is created with it; `fail` is set if `err != nil`. A panic
of `instance` is `none`. -/
def goroutine.onTimer (st : goroutine.State) : Option (goroutine.State × Bool) :=
  match st.publisher.instance st.suffix with
  | none => none
  | some name =>
    some ({ st with inst := name, sysdep := name, starts := st.starts + 1,
                    timerArmed := false }, goroutine.err.isSome)

/-- The end of an iteration: `if fail { timer.Reset(DNSSdRetryInterval) }`. -/
def goroutine.finish (r : goroutine.State × Bool) : goroutine.State :=
  if r.2 then { r.1 with resets := r.1.resets + 1, timerArmed := true } else r.1

/-- One iteration of the loop of `goroutine`, given the case of `select` that
proceeds. The case `<-publisher.fin` returns from the loop. -/
def goroutine.iter (st : goroutine.State) : goroutine.Event → Option goroutine.State
  | goroutine.Event.fin => some { st with returned := true }
  | goroutine.Event.status status => some (goroutine.finish (goroutine.onStatus st status))
  | goroutine.Event.timer =>
    match goroutine.onTimer st with
    | none => none
    | some r => some (goroutine.finish r)

/-- The loop of `goroutine` over the successive cases its `select` takes; once the
loop has returned nothing more is processed. -/
def goroutine.run (st : goroutine.State) : List goroutine.Event → Option goroutine.State
  | [] => some st
  | ev :: evs =>
    if st.returned then some st
    else
      match goroutine.iter st ev with
      | none => none
      | some st1 => goroutine.run st1 evs

/-- The state in which `goroutine` enters its loop, right after `Publish`: the backend
was created with `instance(0)`, `suffix` is 0, `instance := publisher.instance(0)` and
the timer is stopped. -/
def goroutine.init (publisher : DNSSdPublisher) : Option goroutine.State :=
  match publisher.instance 0 with
  | none => none
  | some name =>
    some { publisher := publisher, suffix := 0, inst := name, sysdep := name, saves := 0,
           halts := 0, starts := 0, resets := 0, timerArmed := false, returned := false }

/-- `goroutine` from its entry over the successive cases its `select` takes. -/
def DNSSdPublisher.goroutine (publisher : DNSSdPublisher) (evs : List goroutine.Event) :
    Option goroutine.State :=
  match goroutine.init publisher with
  | none => none
  | some st => goroutine.run st evs

/-- What is ready when `select` runs: `publisher.fin` is closed, a status waits on
`publisher.sysdep.Chan()`, the retry interval has elapsed. -/
structure goroutine.Ready where
  fin : Bool
  status : Option DNSSdStatus
  expired : Bool

/-- The cases of `select` that can proceed: `<-timer.C` can when the timer is ticking
and its interval has elapsed. -/
def goroutine.Ready.canProceed (r : goroutine.Ready) (st : goroutine.State) :
    goroutine.Event → Prop
  | goroutine.Event.fin => r.fin = true
  | goroutine.Event.status status => r.status = some status
  | goroutine.Event.timer => st.timerArmed = true ∧ r.expired = true

/-- The Go `select` statement: if one or more of the cases can proceed, a single one
that can proceed is chosen via a uniform pseudo-random selection. `select st r st1`:
the iteration may lead from `st` to `st1` when `r` is what is ready. -/
def goroutine.select (st : goroutine.State) (r : goroutine.Ready) (st1 : goroutine.State) :
    Prop :=
  ∃ ev : goroutine.Event, r.canProceed st ev ∧ goroutine.iter st ev = some st1

/-- The retry cycles of a backend that reports `status` on every attempt: `k` times the
status followed by the retry timer firing. -/
def goroutine.cycles (status : DNSSdStatus) : Nat → List goroutine.Event
  | 0 => []
  | k + 1 => goroutine.cycles status k
      ++ [goroutine.Event.status status, goroutine.Event.timer]

/-- The number of `DNSSdCollision` events of a sequence. -/
def goroutine.collisions (evs : List goroutine.Event) : Nat :=
  evs.count (goroutine.Event.status DNSSdCollision)

/-! ## Properties of `AddPDL` -/

/-- C1: when `len(key) + 1 + len(value) <= 255`, `AddPDL` appends exactly one item and
the record is what `Add` produces: the earlier items, then `{key, value, false}`. -/
theorem AddPDL_fits_eq_Add (txt : DNSSdTxtRecord) (key value : GoString)
    (h : key.length + 1 + value.length ≤ 255) :
    txt.AddPDL key value = some (txt.Add key value) ∧
      txt.Add key value = txt ++ [DNSSdTxtItem.mk key value false] ∧
      (txt.Add key value).length = txt.length + 1 := by
  refine ⟨?_, rfl, by simp [DNSSdTxtRecord.Add]⟩
  have hmax : DNSSdTxtRecord.AddPDL.max key ≥ (value.length : Int) := by
    unfold DNSSdTxtRecord.AddPDL.max
    omega
  simp [DNSSdTxtRecord.AddPDL, hmax]

/-- Witness of C1 at the key `pdl` and a two-entry list. -/
theorem AddPDL_fits_eq_Add_witness :
    DNSSdTxtRecord.AddPDL [] (GoString.ofString "pdl") (GoString.ofString "a/b,c/d")
      = some [DNSSdTxtItem.mk (GoString.ofString "pdl") (GoString.ofString "a/b,c/d") false] :=
  (AddPDL_fits_eq_Add [] (GoString.ofString "pdl") (GoString.ofString "a/b,c/d")
    (by decide)).1

/-- What the loop of `strings.LastIndexByte` returns over the first `n` positions:
`-1` when none of them holds `c`, else the last one that does. -/
theorem LastIndexByte_loop_spec (s : GoString) (c : UInt8) (n : Nat) :
    (strings.LastIndexByte.loop s c n = -1 ∧ ∀ j, j < n → s[j]? ≠ some c) ∨
      ∃ i : Nat, strings.LastIndexByte.loop s c n = (i : Int) ∧ i < n ∧ s[i]? = some c ∧
        ∀ j, i < j → j < n → s[j]? ≠ some c := by
  induction n with
  | zero =>
    left
    exact ⟨rfl, fun j hj => absurd hj (Nat.not_lt_zero j)⟩
  | succ n ih =>
    by_cases hc : s[n]? = some c
    · right
      refine ⟨n, ?_, Nat.lt_succ_self n, hc, ?_⟩
      · simp [strings.LastIndexByte.loop, hc]
      · intro j h1 h2
        omega
    · have hstep : strings.LastIndexByte.loop s c (n + 1) = strings.LastIndexByte.loop s c n := by
        simp [strings.LastIndexByte.loop, hc]
      rw [hstep]
      rcases ih with ⟨hr, hall⟩ | ⟨i, hr, hin, hic, hall⟩
      · left
        refine ⟨hr, ?_⟩
        intro j hj
        rcases Nat.lt_succ_iff_lt_or_eq.mp hj with h | h
        · exact hall j h
        · rw [h]
          exact hc
      · right
        refine ⟨i, hr, Nat.lt_succ_of_lt hin, hic, ?_⟩
        intro j h1 h2
        rcases Nat.lt_succ_iff_lt_or_eq.mp h2 with h | h
        · exact hall j h1 h
        · rw [h]
          exact hc

/-- The two outcomes of `AddPDL` when the value has to be cut (`0 < max < len(value)`):
either none of the bytes `value[0..max]` is a comma and the record is unchanged, or
the item added holds `value[:i]` for the last comma position `i <= max`. -/
theorem AddPDL_cut_cases (txt : DNSSdTxtRecord) (key value : GoString)
    (h0 : 0 < DNSSdTxtRecord.AddPDL.max key)
    (hlt : DNSSdTxtRecord.AddPDL.max key < (value.length : Int)) :
    (txt.AddPDL key value = some txt ∧
        ∀ j : Nat, (j : Int) ≤ DNSSdTxtRecord.AddPDL.max key → value[j]? ≠ some 44) ∨
      ∃ i : Nat, txt.AddPDL key value = some (txt.Add key (value.take i)) ∧
        (i : Int) ≤ DNSSdTxtRecord.AddPDL.max key ∧ value[i]? = some 44 ∧
        ∀ j : Nat, i < j → (j : Int) ≤ DNSSdTxtRecord.AddPDL.max key → value[j]? ≠ some 44 := by
  obtain ⟨m, hm⟩ : ∃ m : Nat, DNSSdTxtRecord.AddPDL.max key = (m : Int) :=
    ⟨(DNSSdTxtRecord.AddPDL.max key).toNat, (Int.toNat_of_nonneg (le_of_lt h0)).symm⟩
  rw [hm] at h0 hlt
  have hmpos : 0 < m := by omega
  have hmlt : m < value.length := by omega
  have hslice : value.sliceTo ((m : Int) + 1) = some (value.take (m + 1)) := by
    have hcond : (0 : Int) ≤ (m : Int) + 1 ∧ (m : Int) + 1 ≤ (value.length : Int) := by omega
    have htn : ((m : Int) + 1).toNat = m + 1 := by omega
    simp only [GoString.sliceTo, hcond, and_self, if_true, htn]
  have hlen1 : (value.take (m + 1)).length = m + 1 := by
    rw [List.length_take]
    omega
  have hget : ∀ j : Nat, j < m + 1 → (value.take (m + 1))[j]? = value[j]? := by
    intro j hj
    rw [List.getElem?_take, if_pos hj]
  have hnot1 : ¬ ((m : Int) ≥ (value.length : Int)) := by omega
  have hnot2 : ¬ ((m : Int) ≤ 0) := by omega
  have hunfold : txt.AddPDL key value =
      (if strings.LastIndexByte (value.take (m + 1)) 44 < 0 then some txt
        else match GoString.sliceTo (value.take (m + 1))
            (strings.LastIndexByte (value.take (m + 1)) 44) with
          | none => none
          | some value2 => some (txt.Add key value2)) := by
    simp only [DNSSdTxtRecord.AddPDL, hm, hnot1, hnot2, if_false, hslice]
  rw [hunfold, hm]
  unfold strings.LastIndexByte
  rw [hlen1]
  rcases LastIndexByte_loop_spec (value.take (m + 1)) 44 (m + 1) with
    ⟨hr, hall⟩ | ⟨i, hr, hin, hic, hall⟩
  · left
    rw [hr]
    refine ⟨by simp, ?_⟩
    intro j hj
    have hj1 : j < m + 1 := by omega
    rw [← hget j hj1]
    exact hall j hj1
  · right
    refine ⟨i, ?_, by omega, ?_, ?_⟩
    · rw [hr]
      have hnn : ¬ ((i : Int) < 0) := by omega
      have hcond : (0 : Int) ≤ (i : Int) ∧ (i : Int) ≤ ((value.take (m + 1)).length : Int) := by
        rw [hlen1]
        omega
      have htt : List.take i (List.take (m + 1) value) = List.take i value := by
        rw [List.take_take]
        congr 1
        omega
      simp only [hnn, if_false, GoString.sliceTo, hcond, and_self, if_true, Int.toNat_ofNat, htt]
    · rw [← hget i hin]
      exact hic
    · intro j h1 h2
      have hj1 : j < m + 1 := by omega
      rw [← hget j hj1]
      exact hall j h1 hj1

/-- A byte found at position `j <= m` of `value` is a member of `value[:m+1]`. -/
theorem mem_take_of_byte_at (value : GoString) (c : UInt8) (m j : Nat) (hj : j ≤ m)
    (hc : value[j]? = some c) : c ∈ value.take (m + 1) := by
  rw [List.mem_iff_getElem?]
  refine ⟨j, ?_⟩
  rw [List.getElem?_take, if_pos (Nat.lt_succ_of_le hj)]
  exact hc

/-- A member of `value[:m+1]` is found at some position `j <= m` of `value`. -/
theorem byte_at_of_mem_take (value : GoString) (c : UInt8) (m : Nat)
    (hc : c ∈ value.take (m + 1)) : ∃ j : Nat, j ≤ m ∧ value[j]? = some c := by
  rw [List.mem_iff_getElem?] at hc
  obtain ⟨j, hj⟩ := hc
  rw [List.getElem?_take] at hj
  by_cases hlt : j < m + 1
  · rw [if_pos hlt] at hj
    exact ⟨j, Nat.le_of_lt_succ hlt, hj⟩
  · rw [if_neg hlt] at hj
    exact absurd hj (by simp)

/-- C2: when the value must be cut (`0 < max < len(value)`) and `value[:max+1]` holds a
comma, `AddPDL` appends exactly one item `{key, v, false}` where `v` is a strict prefix
of `value`, the byte of `value` right after `v` is a comma, and
`len(key) + 1 + len(v) <= 255`. -/
theorem AddPDL_cut_at_comma (txt : DNSSdTxtRecord) (key value : GoString)
    (h0 : 0 < DNSSdTxtRecord.AddPDL.max key)
    (hlt : DNSSdTxtRecord.AddPDL.max key < (value.length : Int))
    (hcomma : (44 : UInt8) ∈ value.take (DNSSdTxtRecord.AddPDL.max key + 1).toNat) :
    ∃ v : GoString,
      txt.AddPDL key value = some (txt ++ [DNSSdTxtItem.mk key v false]) ∧
      v <+: value ∧ v.length < value.length ∧ value[v.length]? = some 44 ∧
      key.length + 1 + v.length ≤ 255 := by
  obtain ⟨m, hm⟩ : ∃ m : Nat, DNSSdTxtRecord.AddPDL.max key = (m : Int) :=
    ⟨(DNSSdTxtRecord.AddPDL.max key).toNat, (Int.toNat_of_nonneg (le_of_lt h0)).symm⟩
  have htn : (DNSSdTxtRecord.AddPDL.max key + 1).toNat = m + 1 := by omega
  rw [htn] at hcomma
  obtain ⟨j, hjm, hj⟩ := byte_at_of_mem_take value 44 m hcomma
  rcases AddPDL_cut_cases txt key value h0 hlt with ⟨_, hall⟩ | ⟨i, hadd, him, hic, _⟩
  · exact absurd hj (hall j (by omega))
  · have hilt : i < value.length := by
      rcases Nat.lt_or_ge i value.length with h | h
      · exact h
      · rw [List.getElem?_eq_none h] at hic
        exact absurd hic (by simp)
    have hlen : (value.take i).length = i := by
      rw [List.length_take]
      omega
    refine ⟨value.take i, hadd, List.take_prefix i value, ?_, ?_, ?_⟩
    · omega
    · rw [hlen]
      exact hic
    · rw [hlen]
      unfold DNSSdTxtRecord.AddPDL.max at him
      omega

/-- Witness of C2: a key of 250 bytes leaves `max = 4`; the list `a,b,cd` is cut to
`a,b`. -/
theorem AddPDL_cut_at_comma_witness :
    ∃ v : GoString,
      DNSSdTxtRecord.AddPDL [] (List.replicate 250 107) (GoString.ofString "a,b,cd")
        = some ([] ++ [DNSSdTxtItem.mk (List.replicate 250 107) v false]) ∧
      v <+: GoString.ofString "a,b,cd" ∧ v.length < (GoString.ofString "a,b,cd").length ∧
      (GoString.ofString "a,b,cd")[v.length]? = some 44 ∧
      (List.replicate 250 (107 : UInt8)).length + 1 + v.length ≤ 255 :=
  AddPDL_cut_at_comma [] (List.replicate 250 107) (GoString.ofString "a,b,cd")
    (by decide) (by decide) (by decide)

/-- C3: when `len(key) + 1 + len(value) > 255` and `value[:max+1]` holds no comma,
`AddPDL` adds no item: the record is left as it was. -/
theorem AddPDL_no_comma_unchanged (txt : DNSSdTxtRecord) (key value : GoString)
    (hbig : key.length + 1 + value.length > 255)
    (hnone : (44 : UInt8) ∉ value.take (DNSSdTxtRecord.AddPDL.max key + 1).toNat) :
    txt.AddPDL key value = some txt := by
  have hlt : DNSSdTxtRecord.AddPDL.max key < (value.length : Int) := by
    unfold DNSSdTxtRecord.AddPDL.max
    omega
  by_cases h0 : 0 < DNSSdTxtRecord.AddPDL.max key
  · obtain ⟨m, hm⟩ : ∃ m : Nat, DNSSdTxtRecord.AddPDL.max key = (m : Int) :=
      ⟨(DNSSdTxtRecord.AddPDL.max key).toNat, (Int.toNat_of_nonneg (le_of_lt h0)).symm⟩
    have htn : (DNSSdTxtRecord.AddPDL.max key + 1).toNat = m + 1 := by omega
    rw [htn] at hnone
    rcases AddPDL_cut_cases txt key value h0 hlt with ⟨hsame, _⟩ | ⟨i, _, him, hic, _⟩
    · exact hsame
    · exact absurd (mem_take_of_byte_at value 44 m i (by omega) hic) hnone
  · have h1 : ¬ (DNSSdTxtRecord.AddPDL.max key ≥ (value.length : Int)) := by omega
    have h2 : DNSSdTxtRecord.AddPDL.max key ≤ 0 := by omega
    simp only [DNSSdTxtRecord.AddPDL, h1, h2, if_false, if_true]

/-- Witness of C3: with a key of 250 bytes (`max = 4`) the value `abcdef,g` has no
comma among its first five bytes and is dropped. -/
theorem AddPDL_no_comma_unchanged_witness :
    DNSSdTxtRecord.AddPDL [] (List.replicate 250 107) (GoString.ofString "abcdef,g") = some [] :=
  AddPDL_no_comma_unchanged [] (List.replicate 250 107) (GoString.ofString "abcdef,g")
    (by decide) (by decide)

/-- C4: when `AddPDL` cuts the value (`0 < max < len(value)`) and adds an item with value
`v`, no longer prefix `p` of `value` both ends right before a comma and fits the limit
`len(key) + 1 + len(p) <= 255`. -/
theorem AddPDL_cut_maximal (txt : DNSSdTxtRecord) (key value v : GoString)
    (h0 : 0 < DNSSdTxtRecord.AddPDL.max key)
    (hlt : DNSSdTxtRecord.AddPDL.max key < (value.length : Int))
    (hadd : txt.AddPDL key value = some (txt ++ [DNSSdTxtItem.mk key v false])) :
    ¬ ∃ p : GoString, p <+: value ∧ v.length < p.length ∧
        value[p.length]? = some 44 ∧ key.length + 1 + p.length ≤ 255 := by
  rintro ⟨p, _, hlong, hpc, hfit⟩
  rcases AddPDL_cut_cases txt key value h0 hlt with ⟨hsame, _⟩ | ⟨i, hi, _, hic, hall⟩
  · rw [hsame] at hadd
    have hlen := congrArg List.length (Option.some.inj hadd)
    simp at hlen
  · rw [hi] at hadd
    have heq := Option.some.inj hadd
    unfold DNSSdTxtRecord.Add at heq
    have hitem := List.append_cancel_left heq
    have hv : value.take i = v := by
      have := congrArg (fun l => l.map DNSSdTxtItem.Value) hitem
      simpa using this
    have hilt : i < value.length := by
      rcases Nat.lt_or_ge i value.length with h | h
      · exact h
      · rw [List.getElem?_eq_none h] at hic
        exact absurd hic (by simp)
    have hvlen : v.length = i := by
      rw [← hv, List.length_take]
      omega
    refine hall p.length (by omega) ?_ hpc
    unfold DNSSdTxtRecord.AddPDL.max
    omega

/-- Witness of C4: with a key of 250 bytes (`max = 4`) the list `a,b,cd` is cut to `a,b`,
and no longer prefix ends before a comma within the limit. -/
theorem AddPDL_cut_maximal_witness :
    ¬ ∃ p : GoString, p <+: GoString.ofString "a,b,cd" ∧
        (GoString.ofString "a,b").length < p.length ∧
        (GoString.ofString "a,b,cd")[p.length]? = some 44 ∧
        (List.replicate 250 (107 : UInt8)).length + 1 + p.length ≤ 255 :=
  AddPDL_cut_maximal [] (List.replicate 250 107) (GoString.ofString "a,b,cd")
    (GoString.ofString "a,b") (by decide) (by decide) (by decide)

/-- C5 as stated fails: a key of 254 bytes has `max = 0 <= 0`, yet the empty value fits
(`254 + 1 + 0 = 255`) and `AddPDL` adds the item instead of dropping it. -/
theorem AddPDL_max_zero_adds_empty_value :
    DNSSdTxtRecord.AddPDL.max (List.replicate 254 107) ≤ 0 ∧
      DNSSdTxtRecord.AddPDL [] (List.replicate 254 107) []
        = some [DNSSdTxtItem.mk (List.replicate 254 107) [] false] ∧
      DNSSdTxtRecord.AddPDL [] (List.replicate 254 107) [] ≠ some [] := by
  decide

/-- C5, amended: when `max <= 0` and the value does not fit (`max < len(value)`),
`AddPDL` drops the item: no item is added and the record is unchanged. -/
theorem AddPDL_no_space_unchanged (txt : DNSSdTxtRecord) (key value : GoString)
    (hmax : DNSSdTxtRecord.AddPDL.max key ≤ 0)
    (hbig : DNSSdTxtRecord.AddPDL.max key < (value.length : Int)) :
    txt.AddPDL key value = some txt := by
  have h1 : ¬ (DNSSdTxtRecord.AddPDL.max key ≥ (value.length : Int)) := by omega
  simp only [DNSSdTxtRecord.AddPDL, h1, hmax, if_false, if_true]

/-- Witness of the amended C5: a key of 254 bytes (`max = 0`) and the value `a`. -/
theorem AddPDL_no_space_unchanged_witness :
    DNSSdTxtRecord.AddPDL [] (List.replicate 254 107) (GoString.ofString "a") = some [] :=
  AddPDL_no_space_unchanged [] (List.replicate 254 107) (GoString.ofString "a")
    (by decide) (by decide)

/-! ## Properties of `export` -/

/-- The loop of `export` over the first `n` items never fails: it appends their wire
forms to `exported`, last item first. -/
theorem export_loop_eq (txt : DNSSdTxtRecord) (n : Nat) (hn : n ≤ txt.length)
    (exported : List GoString) :
    DNSSdTxtRecord.export.loop txt n exported
      = some (exported ++ ((txt.take n).reverse.map DNSSdTxtItem.bytes)) := by
  induction n generalizing exported with
  | zero => simp [DNSSdTxtRecord.export.loop]
  | succ n ih =>
    have hlt : n < txt.length := hn
    have hget : txt[n]? = some txt[n] := List.getElem?_eq_getElem hlt
    have htake : txt.take (n + 1) = txt.take n ++ [txt[n]] := by
      rw [List.take_succ, hget]
      rfl
    simp only [DNSSdTxtRecord.export.loop, hget]
    rw [ih (Nat.le_of_lt hlt), htake]
    simp only [List.reverse_append, List.reverse_singleton, List.map_append, List.map_cons,
      List.map_nil, List.append_assoc, List.singleton_append, List.cons_append,
      List.nil_append, List.reverse_cons, List.reverse_nil]

/-- C6: for a record of `n` items `export` returns exactly `n` byte strings in reverse
insertion order, entry `i` being the bytes of `txt[n-1-i].Key + "=" + txt[n-1-i].Value`;
a record built by adding `A`, `B`, `C` in that order exports as `[C, B, A]`. -/
theorem export_reverse_order :
    (∀ txt : DNSSdTxtRecord,
      ∃ out : List GoString, txt.export = some out ∧ out.length = txt.length ∧
        ∀ (i : Nat) (item : DNSSdTxtItem), i < txt.length →
          txt[txt.length - 1 - i]? = some item →
          out[i]? = some (item.Key ++ GoString.ofString "=" ++ item.Value)) ∧
      (∀ ka va kb vb kc vc : GoString,
        DNSSdTxtRecord.export
            (DNSSdTxtRecord.Add (DNSSdTxtRecord.Add (DNSSdTxtRecord.Add [] ka va) kb vb) kc vc)
          = some [kc ++ GoString.ofString "=" ++ vc, kb ++ GoString.ofString "=" ++ vb,
              ka ++ GoString.ofString "=" ++ va]) := by
  have hexp : ∀ t : DNSSdTxtRecord, t.export = some (t.reverse.map DNSSdTxtItem.bytes) := by
    intro t
    unfold DNSSdTxtRecord.export
    rw [export_loop_eq t t.length (Nat.le_refl _) [], List.take_length]
    rfl
  refine ⟨?_, ?_⟩
  · intro txt
    refine ⟨txt.reverse.map DNSSdTxtItem.bytes, hexp txt, by simp, ?_⟩
    intro i item hi hitem
    rw [List.getElem?_map, List.getElem?_reverse hi, hitem]
    rfl
  · intro ka va kb vb kc vc
    rw [hexp]
    rfl

/-- Witness of C6: adding `a=1`, `b=2`, `c=3` in that order exports `c=3`, `b=2`, `a=1`. -/
theorem export_reverse_order_witness :
    DNSSdTxtRecord.export
        (DNSSdTxtRecord.Add (DNSSdTxtRecord.Add (DNSSdTxtRecord.Add []
          (GoString.ofString "a") (GoString.ofString "1"))
          (GoString.ofString "b") (GoString.ofString "2"))
          (GoString.ofString "c") (GoString.ofString "3"))
      = some [GoString.ofString "c=3", GoString.ofString "b=2", GoString.ofString "a=1"] :=
  (export_reverse_order.2 (GoString.ofString "a") (GoString.ofString "1")
    (GoString.ofString "b") (GoString.ofString "2")
    (GoString.ofString "c") (GoString.ofString "3")).trans (by decide)

/-! ## Properties of `instance` -/

/-- The decimal text of a Go `int` has at most 20 bytes (19 digits and a sign). -/
theorem Sprintf_d_length_le (n : Int) (h : IsGoInt n) : (fmt.Sprintf_d n).length ≤ 20 := by
  obtain ⟨hlo, hhi⟩ := h
  cases n with
  | ofNat m =>
    have hm : m < 10 ^ 19 := by
      have h1 : (m : Int) < 2 ^ 63 := hhi
      have h2 : m < 2 ^ 63 := by exact_mod_cast h1
      exact lt_trans h2 (by norm_num)
    have hd := Nat.toDigitsCore_length 10 (by decide) (m + 1) m 19 hm (by decide)
    simp only [fmt.Sprintf_d, List.length_map, Nat.toDigits]
    omega
  | negSucc m =>
    have hm : m + 1 < 10 ^ 19 := by
      have h1 : -(2 : Int) ^ 63 ≤ -((m : Int) + 1) := by
        rw [← Int.negSucc_eq]
        exact hlo
      have h2 : (m : Int) + 1 ≤ 2 ^ 63 := by linarith
      have h3 : m + 1 ≤ 2 ^ 63 := by exact_mod_cast h2
      exact lt_of_le_of_lt h3 (by norm_num)
    have hd := Nat.toDigitsCore_length 10 (by decide) (m + 1 + 1) (m + 1) 19 hm (by decide)
    simp only [fmt.Sprintf_d, List.length_cons, List.length_map, Nat.toDigits]
    omega

/-- For every Go `int` the suffix text chosen by the `switch` of `instance` has at most
27 bytes. -/
theorem instance_parts_suffix_length_le (publisher : DNSSdPublisher) (suffix : Int)
    (h : IsGoInt suffix) : (DNSSdPublisher.instance.parts publisher suffix).2.length ≤ 27 := by
  unfold DNSSdPublisher.instance.parts
  by_cases hs : suffix ≠ 0
  · have hd := Sprintf_d_length_le suffix h
    have h6 : (GoString.ofString " (USB ").length = 6 := by decide
    have h1 : (GoString.ofString ")").length = 1 := by decide
    rw [if_pos hs]
    simp only [List.length_append, h6, h1]
    omega
  · rw [if_neg hs]
    by_cases he : publisher.DevState.DNSSdName = publisher.DevState.DNSSdOverride
    · have h6 : (GoString.ofString " (USB)").length = 6 := by decide
      rw [if_pos he]
      simp only [h6]
      omega
    · rw [if_neg he]
      simp

/-- Whenever the suffix text fits into `MaxDNSSDName` bytes, `instance` is defined and
returns the name cut to the space the suffix leaves, followed by the whole suffix. -/
theorem instance_eq_take_append (publisher : DNSSdPublisher) (suffix : Int)
    (hs : (DNSSdPublisher.instance.parts publisher suffix).2.length ≤ 63) :
    publisher.instance suffix
      = some ((DNSSdPublisher.instance.parts publisher suffix).1.take
          (63 - (DNSSdPublisher.instance.parts publisher suffix).2.length)
            ++ (DNSSdPublisher.instance.parts publisher suffix).2) := by
  unfold DNSSdPublisher.instance
  generalize (DNSSdPublisher.instance.parts publisher suffix).1 = name at *
  generalize (DNSSdPublisher.instance.parts publisher suffix).2 = strSuffix at *
  by_cases hlong : (name.length : Int) + (strSuffix.length : Int) > MaxDNSSDName
  · have hcond : (0 : Int) ≤ MaxDNSSDName - (strSuffix.length : Int) ∧
        MaxDNSSDName - (strSuffix.length : Int) ≤ (name.length : Int) := by
      unfold MaxDNSSDName at *
      omega
    have htn : (MaxDNSSDName - (strSuffix.length : Int)).toNat = 63 - strSuffix.length := by
      unfold MaxDNSSDName
      omega
    simp only [hlong, if_true, GoString.sliceTo, hcond, and_self, htn]
  · have hshort : name.length ≤ 63 - strSuffix.length := by
      unfold MaxDNSSDName at hlong
      omega
    simp only [hlong, if_false, List.take_of_length_le hshort]

/-- C7: for every persisted state and every Go `int` suffix, `instance(suffix)` is
defined (the slice `name[:63-len(strSuffix)]` is never out of range) and has at most
63 bytes. -/
theorem instance_defined_length_le (publisher : DNSSdPublisher) (suffix : Int)
    (h : IsGoInt suffix) :
    ∃ name : GoString, publisher.instance suffix = some name ∧ name.length ≤ 63 := by
  have hs := instance_parts_suffix_length_le publisher suffix h
  refine ⟨_, instance_eq_take_append publisher suffix (by omega), ?_⟩
  rw [List.length_append, List.length_take]
  omega

/-- Witness of C7: a base name of 70 bytes and the most negative suffix. -/
theorem instance_defined_length_le_witness :
    ∃ name : GoString,
      DNSSdPublisher.instance
          (DNSSdPublisher.mk (DevState.mk (List.replicate 70 120) (List.replicate 70 120)))
          (-9223372036854775808)
        = some name ∧ name.length ≤ 63 :=
  instance_defined_length_le
    (DNSSdPublisher.mk (DevState.mk (List.replicate 70 120) (List.replicate 70 120)))
    (-9223372036854775808) (by decide)

/-- C8: for every persisted state and every Go `int` suffix other than 0, whatever
`DNSSdOverride` is, `instance(suffix) = p + " (USB " + decimal(suffix) + ")"` where `p`
is the longest prefix of `DNSSdName` with `len(p) + len(suffix text) <= 63`: the result
ends with the whole suffix text and only the end of the base name is cut. -/
theorem instance_collision_suffix (publisher : DNSSdPublisher) (suffix : Int)
    (hne : suffix ≠ 0) (h : IsGoInt suffix) :
    ∃ p : GoString,
      publisher.instance suffix
        = some (p ++ (GoString.ofString " (USB " ++ fmt.Sprintf_d suffix
            ++ GoString.ofString ")")) ∧
      p <+: publisher.DevState.DNSSdName ∧
      p.length + (GoString.ofString " (USB " ++ fmt.Sprintf_d suffix
          ++ GoString.ofString ")").length ≤ 63 ∧
      ∀ q : GoString, q <+: publisher.DevState.DNSSdName →
        q.length + (GoString.ofString " (USB " ++ fmt.Sprintf_d suffix
          ++ GoString.ofString ")").length ≤ 63 →
        q.length ≤ p.length := by
  have hs := instance_parts_suffix_length_le publisher suffix h
  have heq := instance_eq_take_append publisher suffix (by omega)
  have hparts : DNSSdPublisher.instance.parts publisher suffix
      = (publisher.DevState.DNSSdName,
          GoString.ofString " (USB " ++ fmt.Sprintf_d suffix ++ GoString.ofString ")") := by
    unfold DNSSdPublisher.instance.parts
    rw [if_pos hne]
  rw [hparts] at hs heq
  simp only at hs heq
  refine ⟨_, heq, List.take_prefix _ _, ?_, ?_⟩
  · rw [List.length_take]
    omega
  · intro q hq hfit
    have hqn : q.length ≤ publisher.DevState.DNSSdName.length := hq.length_le
    rw [List.length_take]
    omega

/-- Witness of C8: suffix 2 on the base name `Printer`, with an unrelated override,
gives a name ending in ` (USB 2)`. -/
theorem instance_collision_suffix_witness :
    ∃ p : GoString,
      DNSSdPublisher.instance
          (DNSSdPublisher.mk (DevState.mk (GoString.ofString "Printer")
            (GoString.ofString "Printer (USB)"))) 2
        = some (p ++ GoString.ofString " (USB 2)") ∧
      p <+: GoString.ofString "Printer" ∧
      p.length + (GoString.ofString " (USB 2)").length ≤ 63 ∧
      ∀ q : GoString, q <+: GoString.ofString "Printer" →
        q.length + (GoString.ofString " (USB 2)").length ≤ 63 → q.length ≤ p.length :=
  instance_collision_suffix
    (DNSSdPublisher.mk (DevState.mk (GoString.ofString "Printer")
      (GoString.ofString "Printer (USB)"))) 2 (by decide) (by decide)

/-- C9: when `DNSSdOverride == DNSSdName`, `instance(0)` is `DNSSdName` cut to at most
57 bytes followed by ` (USB)`; for `DNSSdName = DNSSdOverride = "Printer"` it is
`Printer (USB)`. -/
theorem instance_first_run (publisher : DNSSdPublisher)
    (h : publisher.DevState.DNSSdOverride = publisher.DevState.DNSSdName) :
    publisher.instance 0
      = some (publisher.DevState.DNSSdName.take 57 ++ GoString.ofString " (USB)") := by
  have hparts : DNSSdPublisher.instance.parts publisher 0
      = (publisher.DevState.DNSSdName, GoString.ofString " (USB)") := by
    unfold DNSSdPublisher.instance.parts
    rw [if_neg (by simp), if_pos h.symm]
  have h6 : (GoString.ofString " (USB)").length = 6 := by decide
  have heq := instance_eq_take_append publisher 0 (by rw [hparts]; simp only [h6]; omega)
  rw [hparts] at heq
  simp only [h6] at heq
  exact heq

/-- Witness of C9: `DNSSdName = DNSSdOverride = "Printer"` gives `Printer (USB)`. -/
theorem instance_first_run_witness :
    DNSSdPublisher.instance
        (DNSSdPublisher.mk (DevState.mk (GoString.ofString "Printer")
          (GoString.ofString "Printer"))) 0
      = some (GoString.ofString "Printer (USB)") :=
  (instance_first_run
    (DNSSdPublisher.mk (DevState.mk (GoString.ofString "Printer")
      (GoString.ofString "Printer"))) rfl).trans (by decide)

/-- C10: when `DNSSdOverride != DNSSdName`, `instance(0)` is `DNSSdOverride` with no
suffix, cut to its first 63 bytes if longer, hence `DNSSdOverride` itself whenever it
has at most 63 bytes. -/
theorem instance_saved_override (publisher : DNSSdPublisher)
    (h : publisher.DevState.DNSSdOverride ≠ publisher.DevState.DNSSdName) :
    publisher.instance 0 = some (publisher.DevState.DNSSdOverride.take 63) ∧
      (publisher.DevState.DNSSdOverride.length ≤ 63 →
        publisher.instance 0 = some publisher.DevState.DNSSdOverride) := by
  have hparts : DNSSdPublisher.instance.parts publisher 0
      = (publisher.DevState.DNSSdOverride, []) := by
    unfold DNSSdPublisher.instance.parts
    rw [if_neg (by simp), if_neg (fun he => h he.symm)]
  have heq := instance_eq_take_append publisher 0 (by rw [hparts]; simp)
  rw [hparts] at heq
  simp only [List.length_nil, Nat.sub_zero, List.append_nil] at heq
  refine ⟨heq, ?_⟩
  intro hlen
  rw [heq, List.take_of_length_le hlen]

/-- Witness of C10: `DNSSdName = "Printer"` and `DNSSdOverride = "Printer (USB)"` give
`Printer (USB)`, with no further suffix. -/
theorem instance_saved_override_witness :
    DNSSdPublisher.instance
        (DNSSdPublisher.mk (DevState.mk (GoString.ofString "Printer")
          (GoString.ofString "Printer (USB)"))) 0
      = some (GoString.ofString "Printer (USB)") :=
  (instance_saved_override
    (DNSSdPublisher.mk (DevState.mk (GoString.ofString "Printer")
      (GoString.ofString "Printer (USB)"))) (by decide)).2 (by decide)

/-! ## Properties of the event loop -/

/-- A Go `int` is left as it is by the wrap-around. -/
theorem GoInt_wrap_eq (n : Int) (h : IsGoInt n) : GoInt.wrap n = n := by
  unfold IsGoInt at h
  unfold GoInt.wrap
  omega

/-- The wrap-around always gives a Go `int`. -/
theorem GoInt_wrap_isGoInt (n : Int) : IsGoInt (GoInt.wrap n) := by
  unfold IsGoInt GoInt.wrap
  omega

/-- For a Go `int` suffix `instance` does not panic, and its result has at most 63
bytes. -/
theorem instance_some_of_isGoInt (publisher : DNSSdPublisher) (suffix : Int)
    (h : IsGoInt suffix) :
    ∃ name : GoString, publisher.instance suffix = some name ∧ name.length ≤ 63 := by
  have hs := instance_parts_suffix_length_le publisher suffix h
  refine ⟨_, instance_eq_take_append publisher suffix (by omega), ?_⟩
  rw [List.length_append, List.length_take]
  omega

/-- The entry state of `goroutine` exists, with `suffix = 0` and nothing done yet. -/
theorem goroutine_init_eq (publisher : DNSSdPublisher) :
    ∃ name : GoString, publisher.instance 0 = some name ∧
      goroutine.init publisher = some (goroutine.State.mk publisher 0 name name 0 0 0 0
        false false) := by
  obtain ⟨name, hname, _⟩ := instance_some_of_isGoInt publisher 0 (by decide)
  exact ⟨name, hname, by simp [goroutine.init, hname]⟩

/-- Once the loop has returned, no further event changes the state. -/
theorem goroutine_run_returned (st : goroutine.State) (evs : List goroutine.Event)
    (h : st.returned = true) : goroutine.run st evs = some st := by
  cases evs with
  | nil => rfl
  | cons ev evs => simp [goroutine.run, h]

/-- Running over two sequences in a row. -/
theorem goroutine_run_append (st : goroutine.State) (evs1 evs2 : List goroutine.Event) :
    goroutine.run st (evs1 ++ evs2)
      = (goroutine.run st evs1).bind (fun st1 => goroutine.run st1 evs2) := by
  induction evs1 generalizing st with
  | nil => simp [goroutine.run]
  | cons ev evs1 ih =>
    by_cases hret : st.returned = true
    · simp [goroutine.run, hret, goroutine_run_returned st evs2 hret]
    · cases hiter : goroutine.iter st ev with
      | none => simp [goroutine.run, hret, hiter]
      | some st1 => simp [goroutine.run, hret, hiter, ih st1]

/-- The handling of a `DNSSdCollision`: `suffix` is incremented, the backend halted and
the retry timer armed; nothing else changes. -/
theorem goroutine_iter_collision (st : goroutine.State) :
    goroutine.iter st (goroutine.Event.status DNSSdCollision)
      = some { st with suffix := GoInt.wrap (st.suffix + 1), halts := st.halts + 1,
                       resets := st.resets + 1, timerArmed := true } := by
  simp [goroutine.iter, goroutine.onStatus, goroutine.finish, DNSSdCollision, DNSSdSuccess]

/-- The handling of a `DNSSdFailure`: the backend is halted and the retry timer armed;
nothing else changes. -/
theorem goroutine_iter_failure (st : goroutine.State) :
    goroutine.iter st (goroutine.Event.status DNSSdFailure)
      = some { st with halts := st.halts + 1, resets := st.resets + 1,
                       timerArmed := true } := by
  simp [goroutine.iter, goroutine.onStatus, goroutine.finish, DNSSdCollision, DNSSdSuccess,
    DNSSdFailure]

/-- The retry timer firing: the name is recomputed with the current `suffix` and a new
backend is created with it; the timer is not armed again. -/
theorem goroutine_iter_timer (st : goroutine.State) (name : GoString)
    (h : st.publisher.instance st.suffix = some name) :
    goroutine.iter st goroutine.Event.timer
      = some { st with inst := name, sysdep := name, starts := st.starts + 1,
                       timerArmed := false } := by
  simp [goroutine.iter, goroutine.onTimer, goroutine.finish, goroutine.err, h]

/-- The handling of a `DNSSdSuccess`: the current name is stored in `DNSSdOverride` and
saved if it differs from it; nothing else changes. -/
theorem goroutine_iter_success (st : goroutine.State) :
    goroutine.iter st (goroutine.Event.status DNSSdSuccess)
      = some (if st.inst ≠ st.publisher.DevState.DNSSdOverride then
          { st with
            publisher := DNSSdPublisher.mk
              (DevState.mk st.publisher.DevState.DNSSdName st.inst)
            saves := st.saves + 1 }
        else st) := by
  by_cases h : st.inst = st.publisher.DevState.DNSSdOverride
  · simp [goroutine.iter, goroutine.onStatus, goroutine.finish, h]
  · simp [goroutine.iter, goroutine.onStatus, goroutine.finish, h]

/-- C11 as stated fails: with `DNSSdName = "Printer"` and the saved override
`"Printer (USB 1)"`, after Collision, retry timer and Success the name published is
`"Printer (USB 1)"`, equal to the override already stored, and `Save()` was not
called at all. -/
theorem goroutine_collision_success_without_save :
    (DNSSdPublisher.goroutine
        (DNSSdPublisher.mk (DevState.mk (GoString.ofString "Printer")
          (GoString.ofString "Printer (USB 1)")))
        [goroutine.Event.status DNSSdCollision, goroutine.Event.timer,
          goroutine.Event.status DNSSdSuccess]).map
      (fun st => (st.sysdep, st.publisher.DevState.DNSSdOverride, st.saves))
      = some (GoString.ofString "Printer (USB 1)", GoString.ofString "Printer (USB 1)", 0) := by
  decide

/-- C11, amended: for every initial persisted state, after Collision, retry timer and
Success the persisted `DNSSdOverride` equals the name used for the successful attempt,
`instance(1)`; `Save()` was called exactly once if the initial `DNSSdOverride` differs
from that name, and not at all if it is that name already. -/
theorem goroutine_collision_then_success (publisher : DNSSdPublisher) :
    ∃ (st : goroutine.State) (name : GoString),
      publisher.goroutine [goroutine.Event.status DNSSdCollision, goroutine.Event.timer,
        goroutine.Event.status DNSSdSuccess] = some st ∧
      publisher.instance 1 = some name ∧ st.sysdep = name ∧ st.inst = name ∧
      st.publisher.DevState.DNSSdOverride = name ∧
      st.publisher.DevState.DNSSdName = publisher.DevState.DNSSdName ∧
      st.saves = (if publisher.DevState.DNSSdOverride = name then 0 else 1) := by
  obtain ⟨name0, _, hinit⟩ := goroutine_init_eq publisher
  obtain ⟨name, hname, _⟩ := instance_some_of_isGoInt publisher 1 (by decide)
  have hw : GoInt.wrap (0 + 1) = 1 := by decide
  have h1 : goroutine.iter (goroutine.State.mk publisher 0 name0 name0 0 0 0 0 false false)
      (goroutine.Event.status DNSSdCollision)
      = some (goroutine.State.mk publisher 1 name0 name0 0 1 0 1 true false) := by
    rw [goroutine_iter_collision]
    simp only [hw, Nat.zero_add]
  have h2 : goroutine.iter (goroutine.State.mk publisher 1 name0 name0 0 1 0 1 true false)
      goroutine.Event.timer
      = some (goroutine.State.mk publisher 1 name name 0 1 1 1 false false) :=
    goroutine_iter_timer (goroutine.State.mk publisher 1 name0 name0 0 1 0 1 true false)
      name hname
  have h3 := goroutine_iter_success (goroutine.State.mk publisher 1 name name 0 1 1 1
    false false)
  have hrun : publisher.goroutine [goroutine.Event.status DNSSdCollision,
      goroutine.Event.timer, goroutine.Event.status DNSSdSuccess]
      = goroutine.iter (goroutine.State.mk publisher 1 name name 0 1 1 1 false false)
          (goroutine.Event.status DNSSdSuccess) := by
    simp only [DNSSdPublisher.goroutine, hinit, goroutine.run, h1, h2, Bool.false_eq_true,
      if_false]
    cases goroutine.iter (goroutine.State.mk publisher 1 name name 0 1 1 1 false false)
      (goroutine.Event.status DNSSdSuccess) <;> rfl
  rw [hrun, h3]
  by_cases hov : publisher.DevState.DNSSdOverride = name
  · have hov1 : ¬ (name ≠ publisher.DevState.DNSSdOverride) := fun h => h hov.symm
    rw [if_neg hov1]
    refine ⟨goroutine.State.mk publisher 1 name name 0 1 1 1 false false, name, rfl,
      hname, rfl, rfl, hov, rfl, ?_⟩
    simp only [hov, if_true]
  · have hov1 : name ≠ publisher.DevState.DNSSdOverride := fun h => hov h.symm
    rw [if_pos hov1]
    refine ⟨goroutine.State.mk
        (DNSSdPublisher.mk (DevState.mk publisher.DevState.DNSSdName name))
        1 name name (0 + 1) 1 1 1 false false, name, rfl, hname, rfl, rfl, rfl, rfl, ?_⟩
    simp only [hov, if_false, Nat.zero_add]

/-- Witness of the amended C11 on a first-run state: from `DNSSdName = DNSSdOverride =
"Printer"` the override ends as `"Printer (USB 1)"` after exactly one `Save()`. -/
theorem goroutine_collision_then_success_witness :
    (DNSSdPublisher.goroutine
        (DNSSdPublisher.mk (DevState.mk (GoString.ofString "Printer")
          (GoString.ofString "Printer")))
        [goroutine.Event.status DNSSdCollision, goroutine.Event.timer,
          goroutine.Event.status DNSSdSuccess]).map
      (fun st => (st.publisher.DevState.DNSSdOverride, st.saves))
      = some (GoString.ofString "Printer (USB 1)", 1) := by
  obtain ⟨st, name, hrun, hname, _, _, hov, _, hsaves⟩ :=
    goroutine_collision_then_success
      (DNSSdPublisher.mk (DevState.mk (GoString.ofString "Printer")
        (GoString.ofString "Printer")))
  have hname1 : name = GoString.ofString "Printer (USB 1)" :=
    Option.some.inj (hname.symm.trans (by decide))
  subst hname1
  rw [hrun, Option.map_some', hov, hsaves]
  decide

/-- C12 as stated fails: with `DNSSdName = "Printer"` and the saved override
`"Printer (USB 1)"` the loop starts on the name `"Printer (USB 1)"`; after a Collision
and the retry timer the new backend is created with `instance(1)`, which is
`"Printer (USB 1)"` again, the very name that collided. -/
theorem goroutine_collision_keeps_name :
    (DNSSdPublisher.goroutine
        (DNSSdPublisher.mk (DevState.mk (GoString.ofString "Printer")
          (GoString.ofString "Printer (USB 1)"))) []).map
      (fun st => (st.inst, st.sysdep, st.starts))
      = some (GoString.ofString "Printer (USB 1)", GoString.ofString "Printer (USB 1)", 0) ∧
    (DNSSdPublisher.goroutine
        (DNSSdPublisher.mk (DevState.mk (GoString.ofString "Printer")
          (GoString.ofString "Printer (USB 1)")))
        [goroutine.Event.status DNSSdCollision, goroutine.Event.timer]).map
      (fun st => (st.inst, st.sysdep, st.starts, st.suffix))
      = some (GoString.ofString "Printer (USB 1)", GoString.ofString "Printer (USB 1)", 1, 1) := by
  decide

/-- One iteration from a state whose `suffix` is a Go `int` never panics; only a
`DNSSdCollision` changes `suffix`, only a `DNSSdSuccess` can change the persistent state,
and only `<-publisher.fin` makes the loop return. -/
theorem goroutine_iter_spec (st : goroutine.State) (ev : goroutine.Event)
    (hs : IsGoInt st.suffix) :
    ∃ st1 : goroutine.State, goroutine.iter st ev = some st1 ∧
      st1.suffix = (if ev = goroutine.Event.status DNSSdCollision
        then GoInt.wrap (st.suffix + 1) else st.suffix) ∧
      (ev ≠ goroutine.Event.status DNSSdSuccess → st1.publisher = st.publisher) ∧
      (ev ≠ goroutine.Event.fin → st1.returned = st.returned) := by
  cases ev with
  | fin => exact ⟨_, rfl, by simp, fun _ => rfl, fun h => absurd rfl h⟩
  | timer =>
    obtain ⟨name, hname, _⟩ := instance_some_of_isGoInt st.publisher st.suffix hs
    exact ⟨_, goroutine_iter_timer st name hname, by simp, fun _ => rfl, fun _ => rfl⟩
  | status s =>
    by_cases h3 : s = DNSSdSuccess
    · subst h3
      refine ⟨_, goroutine_iter_success st, ?_, fun h => absurd rfl h, ?_⟩
      · have hne : ¬ (DNSSdSuccess = DNSSdCollision) := by decide
        simp only [goroutine.Event.status.injEq, hne, if_false]
        split <;> rfl
      · intro _
        split <;> rfl
    · by_cases h1 : s = DNSSdCollision
      · subst h1
        exact ⟨_, goroutine_iter_collision st, by simp, fun _ => rfl, fun _ => rfl⟩
      · by_cases h2 : s = DNSSdFailure
        · subst h2
          refine ⟨_, goroutine_iter_failure st, ?_, fun _ => rfl, fun _ => rfl⟩
          simp only [goroutine.Event.status.injEq, h1, if_false]
        · refine ⟨st, ?_, ?_, fun _ => rfl, fun _ => rfl⟩
          · simp [goroutine.iter, goroutine.onStatus, goroutine.finish, h1, h2, h3]
          · simp only [goroutine.Event.status.injEq, h1, if_false]

/-- A run without `DNSSdSuccess` from a state whose `suffix` is a Go `int` never panics
and leaves the persistent state as it was. -/
theorem goroutine_run_no_success (evs : List goroutine.Event) (st : goroutine.State)
    (hs : IsGoInt st.suffix) (hno : goroutine.Event.status DNSSdSuccess ∉ evs) :
    ∃ st1 : goroutine.State, goroutine.run st evs = some st1 ∧
      st1.publisher = st.publisher := by
  induction evs generalizing st with
  | nil => exact ⟨st, rfl, rfl⟩
  | cons ev evs ih =>
    by_cases hret : st.returned = true
    · exact ⟨st, goroutine_run_returned st _ hret, rfl⟩
    · have hev : ev ≠ goroutine.Event.status DNSSdSuccess := fun h =>
        hno (by rw [h]; exact List.mem_cons_self _ _)
      have hrest : goroutine.Event.status DNSSdSuccess ∉ evs := fun h =>
        hno (List.mem_cons_of_mem _ h)
      obtain ⟨st1, hiter, hsuf, hpub, _⟩ := goroutine_iter_spec st ev hs
      have hs1 : IsGoInt st1.suffix := by
        rw [hsuf]
        split
        · exact GoInt_wrap_isGoInt _
        · exact hs
      obtain ⟨st2, hrun, hpub2⟩ := ih st1 hs1 hrest
      refine ⟨st2, ?_, hpub2.trans (hpub hev)⟩
      simp only [goroutine.run, hret, hiter, hrun, Bool.false_eq_true, if_false]

/-- A run without `<-publisher.fin` from a state with `suffix >= 0`, as long as the
counter stays a Go `int`: the run never panics, the loop does not return, and `suffix`
has grown by the number of `DNSSdCollision` events. -/
theorem goroutine_run_suffix (evs : List goroutine.Event) (st : goroutine.State)
    (h0 : 0 ≤ st.suffix) (hret : st.returned = false)
    (hfin : goroutine.Event.fin ∉ evs)
    (hlt : st.suffix + (goroutine.collisions evs : Int) < 2 ^ 63) :
    ∃ st1 : goroutine.State, goroutine.run st evs = some st1 ∧
      st1.suffix = st.suffix + (goroutine.collisions evs : Int) ∧ st1.returned = false := by
  induction evs generalizing st with
  | nil => exact ⟨st, rfl, by simp [goroutine.collisions], hret⟩
  | cons ev evs ih =>
    have hev : ev ≠ goroutine.Event.fin := fun h =>
      hfin (by rw [h]; exact List.mem_cons_self _ _)
    have hrest : goroutine.Event.fin ∉ evs := fun h => hfin (List.mem_cons_of_mem _ h)
    have hcount : goroutine.collisions (ev :: evs) = goroutine.collisions evs
        + (if ev = goroutine.Event.status DNSSdCollision then 1 else 0) := by
      unfold goroutine.collisions
      rw [List.count_cons]
      simp only [beq_iff_eq]
    have hs : IsGoInt st.suffix := by
      unfold IsGoInt
      omega
    obtain ⟨st1, hiter, hsuf, _, hret1⟩ := goroutine_iter_spec st ev hs
    have hsuf1 : st1.suffix = st.suffix
        + ((if ev = goroutine.Event.status DNSSdCollision then 1 else 0 : Nat) : Int) := by
      rw [hsuf]
      by_cases hc : ev = goroutine.Event.status DNSSdCollision
      · rw [if_pos hc, if_pos hc]
        rw [hcount, if_pos hc] at hlt
        apply GoInt_wrap_eq
        unfold IsGoInt
        omega
      · rw [if_neg hc, if_neg hc]
        simp
    rw [hcount] at hlt ⊢
    obtain ⟨st2, hrun, hsuf2, hret2⟩ := ih st1 (by rw [hsuf1]; omega)
      ((hret1 hev).trans hret) hrest (by rw [hsuf1]; push_cast at hlt ⊢; omega)
    refine ⟨st2, ?_, ?_, hret2⟩
    · simp only [goroutine.run, hret, hiter, hrun, Bool.false_eq_true, if_false]
    · rw [hsuf2, hsuf1]
      push_cast
      omega

/-- One retry cycle after a `DNSSdCollision`: the retry recomputes the name with the
incremented `suffix`. -/
theorem goroutine_cycle_collision (st : goroutine.State) (hret : st.returned = false)
    (hs : IsGoInt (st.suffix + 1)) :
    ∃ st1 : goroutine.State,
      goroutine.run st [goroutine.Event.status DNSSdCollision, goroutine.Event.timer]
        = some st1 ∧
      st1.suffix = st.suffix + 1 ∧ st1.publisher = st.publisher ∧ st1.returned = false ∧
      st1.starts = st.starts + 1 ∧
      st.publisher.instance (st.suffix + 1) = some st1.inst ∧ st1.sysdep = st1.inst := by
  obtain ⟨publisher, suffix, inst, sysdep, saves, halts, starts, resets, timerArmed,
    returned⟩ := st
  simp only at hret hs
  subst hret
  obtain ⟨name, hname, _⟩ := instance_some_of_isGoInt publisher (suffix + 1) hs
  have hw : GoInt.wrap (suffix + 1) = suffix + 1 := GoInt_wrap_eq _ hs
  have h1 : goroutine.iter
      (goroutine.State.mk publisher suffix inst sysdep saves halts starts resets timerArmed
        false) (goroutine.Event.status DNSSdCollision)
      = some (goroutine.State.mk publisher (suffix + 1) inst sysdep saves (halts + 1) starts
          (resets + 1) true false) := by
    rw [goroutine_iter_collision]
    simp only [hw]
  have h2 : goroutine.iter
      (goroutine.State.mk publisher (suffix + 1) inst sysdep saves (halts + 1) starts
        (resets + 1) true false) goroutine.Event.timer
      = some (goroutine.State.mk publisher (suffix + 1) name name saves (halts + 1)
          (starts + 1) (resets + 1) false false) :=
    goroutine_iter_timer _ name hname
  refine ⟨goroutine.State.mk publisher (suffix + 1) name name saves (halts + 1)
    (starts + 1) (resets + 1) false false, ?_, rfl, rfl, rfl, rfl, hname, rfl⟩
  simp only [goroutine.run, h1, h2, Bool.false_eq_true, if_false]

/-- One retry cycle after a `DNSSdFailure`: the retry recomputes the name with the
same `suffix`. -/
theorem goroutine_cycle_failure (st : goroutine.State) (hret : st.returned = false)
    (hs : IsGoInt st.suffix) :
    ∃ st1 : goroutine.State,
      goroutine.run st [goroutine.Event.status DNSSdFailure, goroutine.Event.timer]
        = some st1 ∧
      st1.suffix = st.suffix ∧ st1.publisher = st.publisher ∧ st1.returned = false ∧
      st1.starts = st.starts + 1 ∧
      st.publisher.instance st.suffix = some st1.inst ∧ st1.sysdep = st1.inst := by
  obtain ⟨publisher, suffix, inst, sysdep, saves, halts, starts, resets, timerArmed,
    returned⟩ := st
  simp only at hret hs
  subst hret
  obtain ⟨name, hname, _⟩ := instance_some_of_isGoInt publisher suffix hs
  have h1 : goroutine.iter
      (goroutine.State.mk publisher suffix inst sysdep saves halts starts resets timerArmed
        false) (goroutine.Event.status DNSSdFailure)
      = some (goroutine.State.mk publisher suffix inst sysdep saves (halts + 1) starts
          (resets + 1) true false) := by
    rw [goroutine_iter_failure]
  have h2 : goroutine.iter
      (goroutine.State.mk publisher suffix inst sysdep saves (halts + 1) starts
        (resets + 1) true false) goroutine.Event.timer
      = some (goroutine.State.mk publisher suffix name name saves (halts + 1)
          (starts + 1) (resets + 1) false false) :=
    goroutine_iter_timer _ name hname
  refine ⟨goroutine.State.mk publisher suffix name name saves (halts + 1)
    (starts + 1) (resets + 1) false false, ?_, rfl, rfl, rfl, rfl, hname, rfl⟩
  simp only [goroutine.run, h1, h2, Bool.false_eq_true, if_false]

/-- After `k >= 1` retry cycles that each start with a `DNSSdCollision`, `suffix` has
grown by `k` and the last retry computed the name with it. -/
theorem goroutine_cycles_collision (k : Nat) (st : goroutine.State)
    (h0 : 0 ≤ st.suffix) (hret : st.returned = false)
    (hlt : st.suffix + ((k + 1 : Nat) : Int) < 2 ^ 63) :
    ∃ st1 : goroutine.State,
      goroutine.run st (goroutine.cycles DNSSdCollision (k + 1)) = some st1 ∧
      st1.suffix = st.suffix + ((k + 1 : Nat) : Int) ∧ st1.publisher = st.publisher ∧
      st1.returned = false ∧ st1.starts = st.starts + (k + 1) ∧
      st.publisher.instance (st.suffix + ((k + 1 : Nat) : Int)) = some st1.inst ∧
      st1.sysdep = st1.inst := by
  induction k with
  | zero =>
    have hs : IsGoInt (st.suffix + 1) := by
      unfold IsGoInt
      omega
    obtain ⟨st1, hrun, hsuf, hpub, hret1, hst, hinst, hsys⟩ :=
      goroutine_cycle_collision st hret hs
    refine ⟨st1, ?_, by rw [hsuf]; simp, hpub, hret1, hst, by simpa using hinst, hsys⟩
    simpa [goroutine.cycles] using hrun
  | succ k ih =>
    obtain ⟨st1, hrun, hsuf, hpub, hret1, hst, _, _⟩ := ih (by push_cast at hlt ⊢; omega)
    have hs : IsGoInt (st1.suffix + 1) := by
      unfold IsGoInt
      rw [hsuf]
      push_cast at hlt ⊢
      omega
    obtain ⟨st2, hrun2, hsuf2, hpub2, hret2, hst2, hinst2, hsys2⟩ :=
      goroutine_cycle_collision st1 hret1 hs
    have hsuf3 : st2.suffix = st.suffix + ((k + 1 + 1 : Nat) : Int) := by
      rw [hsuf2, hsuf]
      push_cast
      omega
    refine ⟨st2, ?_, hsuf3, hpub2.trans hpub, hret2, by omega, ?_, hsys2⟩
    · have hcyc : goroutine.cycles DNSSdCollision (k + 1 + 1)
          = goroutine.cycles DNSSdCollision (k + 1)
            ++ [goroutine.Event.status DNSSdCollision, goroutine.Event.timer] := rfl
      rw [hcyc, goroutine_run_append, hrun]
      exact hrun2
    · rw [← hsuf3, hsuf2, ← hpub]
      exact hinst2

/-- After `k >= 1` retry cycles that each start with a `DNSSdFailure`, `suffix` is what
it was and the last retry computed the name with it. -/
theorem goroutine_cycles_failure (k : Nat) (st : goroutine.State)
    (hs : IsGoInt st.suffix) (hret : st.returned = false) :
    ∃ st1 : goroutine.State,
      goroutine.run st (goroutine.cycles DNSSdFailure (k + 1)) = some st1 ∧
      st1.suffix = st.suffix ∧ st1.publisher = st.publisher ∧
      st1.returned = false ∧ st1.starts = st.starts + (k + 1) ∧
      st.publisher.instance st.suffix = some st1.inst ∧ st1.sysdep = st1.inst := by
  induction k with
  | zero =>
    obtain ⟨st1, hrun, hsuf, hpub, hret1, hst, hinst, hsys⟩ :=
      goroutine_cycle_failure st hret hs
    refine ⟨st1, ?_, hsuf, hpub, hret1, hst, hinst, hsys⟩
    simpa [goroutine.cycles] using hrun
  | succ k ih =>
    obtain ⟨st1, hrun, hsuf, hpub, hret1, hst, _, _⟩ := ih
    obtain ⟨st2, hrun2, hsuf2, hpub2, hret2, hst2, hinst2, hsys2⟩ :=
      goroutine_cycle_failure st1 hret1 (by rw [hsuf]; exact hs)
    refine ⟨st2, ?_, hsuf2.trans hsuf, hpub2.trans hpub, hret2, by omega, ?_, hsys2⟩
    · have hcyc : goroutine.cycles DNSSdFailure (k + 1 + 1)
          = goroutine.cycles DNSSdFailure (k + 1)
            ++ [goroutine.Event.status DNSSdFailure, goroutine.Event.timer] := rfl
      rw [hcyc, goroutine_run_append, hrun]
      exact hrun2
    · rw [← hsuf, ← hpub]
      exact hinst2

/-- C13 as stated fails: a `DNSSdFailure` does not touch `suffix`. With a backend that
reports Failure on every attempt, the first and the second retry both recompute the name
with suffix 0 (`"Printer (USB)"` again), not with suffixes 1 and 2. -/
theorem goroutine_failure_cycles_keep_suffix :
    (DNSSdPublisher.goroutine
        (DNSSdPublisher.mk (DevState.mk (GoString.ofString "Printer")
          (GoString.ofString "Printer")))
        (goroutine.cycles DNSSdFailure 1)).map (fun st => (st.suffix, st.sysdep))
      = some (0, GoString.ofString "Printer (USB)") ∧
    (DNSSdPublisher.goroutine
        (DNSSdPublisher.mk (DevState.mk (GoString.ofString "Printer")
          (GoString.ofString "Printer")))
        (goroutine.cycles DNSSdFailure 2)).map (fun st => (st.suffix, st.sysdep))
      = some (0, GoString.ofString "Printer (USB)") := by
  decide

/-- C13, amended: for a backend that reports Collision on every attempt, the `k`-th
retry (`1 <= k < 2^63`) recomputes the instance name with suffix `k`; for a backend
that reports Failure on every attempt every retry recomputes it with suffix 0. -/
theorem goroutine_collision_cycles_suffix (publisher : DNSSdPublisher) (k : Nat)
    (hk1 : 1 ≤ k) (hk : (k : Int) < 2 ^ 63) :
    (∃ (st : goroutine.State) (name : GoString),
      publisher.goroutine (goroutine.cycles DNSSdCollision k) = some st ∧
      st.suffix = (k : Int) ∧ publisher.instance (k : Int) = some name ∧
      st.inst = name ∧ st.sysdep = name ∧ st.starts = k) ∧
    (∃ (st : goroutine.State) (name : GoString),
      publisher.goroutine (goroutine.cycles DNSSdFailure k) = some st ∧
      st.suffix = 0 ∧ publisher.instance 0 = some name ∧
      st.inst = name ∧ st.sysdep = name ∧ st.starts = k) := by
  obtain ⟨j, rfl⟩ : ∃ j : Nat, k = j + 1 := ⟨k - 1, by omega⟩
  obtain ⟨name0, _, hinit⟩ := goroutine_init_eq publisher
  constructor
  · obtain ⟨st, hrun, hsuf, _, _, hst, hinst, hsys⟩ :=
      goroutine_cycles_collision j
        (goroutine.State.mk publisher 0 name0 name0 0 0 0 0 false false)
        (le_refl _) rfl (by simpa using hk)
    simp only [Int.zero_add, Nat.zero_add] at hsuf hst hinst
    refine ⟨st, st.inst, ?_, hsuf, hinst, rfl, hsys, hst⟩
    simp only [DNSSdPublisher.goroutine, hinit, hrun]
  · obtain ⟨st, hrun, hsuf, _, _, hst, hinst, hsys⟩ :=
      goroutine_cycles_failure j
        (goroutine.State.mk publisher 0 name0 name0 0 0 0 0 false false)
        (show IsGoInt 0 by decide) rfl
    simp only [Nat.zero_add] at hsuf hst hinst
    refine ⟨st, st.inst, ?_, hsuf, hinst, rfl, hsys, hst⟩
    simp only [DNSSdPublisher.goroutine, hinit, hrun]

/-- Witness of the amended C13: two Collision cycles on `"Printer"` end on suffix 2. -/
theorem goroutine_collision_cycles_suffix_witness :
    ∃ (st : goroutine.State) (name : GoString),
      DNSSdPublisher.goroutine
          (DNSSdPublisher.mk (DevState.mk (GoString.ofString "Printer")
            (GoString.ofString "Printer")))
          (goroutine.cycles DNSSdCollision 2) = some st ∧
      st.suffix = ((2 : Nat) : Int) ∧
      DNSSdPublisher.instance
          (DNSSdPublisher.mk (DevState.mk (GoString.ofString "Printer")
            (GoString.ofString "Printer"))) ((2 : Nat) : Int) = some name ∧
      st.inst = name ∧ st.sysdep = name ∧ st.starts = 2 :=
  (goroutine_collision_cycles_suffix
    (DNSSdPublisher.mk (DevState.mk (GoString.ofString "Printer")
      (GoString.ofString "Printer"))) 2 (by decide) (by decide)).1

/-- C14 as stated fails: from `DNSSdName = DNSSdOverride = "Printer"`, a single Success
(no Collision at all) stores the published name `"Printer (USB)"` in `DNSSdOverride`,
which then differs from `DNSSdName`. -/
theorem goroutine_success_changes_override :
    (DNSSdPublisher.goroutine
        (DNSSdPublisher.mk (DevState.mk (GoString.ofString "Printer")
          (GoString.ofString "Printer")))
        [goroutine.Event.status DNSSdSuccess]).map
      (fun st => (st.publisher.DevState.DNSSdName, st.publisher.DevState.DNSSdOverride,
        st.saves))
      = some (GoString.ofString "Printer", GoString.ofString "Printer (USB)", 1) := by
  decide

/-- C14, amended: starting from `DNSSdOverride == DNSSdName`, for every event sequence
containing no Success (Collision, Failure, unknown statuses, retry-timer firings and
termination only), `DNSSdOverride == DNSSdName` still holds after the sequence, the
persistent state being untouched. -/
theorem goroutine_override_kept_without_success (publisher : DNSSdPublisher)
    (evs : List goroutine.Event)
    (heq : publisher.DevState.DNSSdOverride = publisher.DevState.DNSSdName)
    (hno : goroutine.Event.status DNSSdSuccess ∉ evs) :
    ∃ st : goroutine.State, publisher.goroutine evs = some st ∧
      st.publisher = publisher ∧
      st.publisher.DevState.DNSSdOverride = st.publisher.DevState.DNSSdName := by
  obtain ⟨name0, _, hinit⟩ := goroutine_init_eq publisher
  obtain ⟨st, hrun, hpub⟩ := goroutine_run_no_success evs
    (goroutine.State.mk publisher 0 name0 name0 0 0 0 0 false false)
    (show IsGoInt 0 by decide) hno
  simp only at hpub
  refine ⟨st, ?_, hpub, by rw [hpub]; exact heq⟩
  simp only [DNSSdPublisher.goroutine, hinit, hrun]

/-- Witness of the amended C14: Failure, retry, Collision, retry, an unknown status. -/
theorem goroutine_override_kept_without_success_witness :
    ∃ st : goroutine.State,
      DNSSdPublisher.goroutine
          (DNSSdPublisher.mk (DevState.mk (GoString.ofString "Printer")
            (GoString.ofString "Printer")))
          [goroutine.Event.status DNSSdFailure, goroutine.Event.timer,
            goroutine.Event.status DNSSdCollision, goroutine.Event.timer,
            goroutine.Event.status 7] = some st ∧
      st.publisher = DNSSdPublisher.mk (DevState.mk (GoString.ofString "Printer")
        (GoString.ofString "Printer")) ∧
      st.publisher.DevState.DNSSdOverride = st.publisher.DevState.DNSSdName :=
  goroutine_override_kept_without_success
    (DNSSdPublisher.mk (DevState.mk (GoString.ofString "Printer")
      (GoString.ofString "Printer")))
    [goroutine.Event.status DNSSdFailure, goroutine.Event.timer,
      goroutine.Event.status DNSSdCollision, goroutine.Event.timer,
      goroutine.Event.status 7] rfl (by decide)

/-- C15 as stated fails: after a Failure the retry timer is armed; in the next iteration,
with `publisher.fin` closed and the retry interval elapsed, `select` may take the case
`<-timer.C`: the loop does not return and creates a new backend, although termination
has been signalled. -/
theorem goroutine_select_timer_despite_fin :
    ∃ st st1 : goroutine.State,
      DNSSdPublisher.goroutine
          (DNSSdPublisher.mk (DevState.mk (GoString.ofString "Printer")
            (GoString.ofString "Printer")))
          [goroutine.Event.status DNSSdFailure] = some st ∧
      st.timerArmed = true ∧
      goroutine.select st (goroutine.Ready.mk true none true) st1 ∧
      st1.returned = false ∧ st1.starts = st.starts + 1 ∧
      st1.sysdep = GoString.ofString "Printer (USB)" := by
  refine ⟨goroutine.State.mk
      (DNSSdPublisher.mk (DevState.mk (GoString.ofString "Printer")
        (GoString.ofString "Printer")))
      0 (GoString.ofString "Printer (USB)") (GoString.ofString "Printer (USB)") 0 1 0 1
      true false,
    goroutine.State.mk
      (DNSSdPublisher.mk (DevState.mk (GoString.ofString "Printer")
        (GoString.ofString "Printer")))
      0 (GoString.ofString "Printer (USB)") (GoString.ofString "Printer (USB)") 0 1 1 1
      false false, ?_, rfl, ⟨goroutine.Event.timer, ⟨rfl, rfl⟩, ?_⟩, rfl, rfl, rfl⟩
  · rfl
  · rfl

/-- C15, amended: in an iteration of the running loop in which the termination signal is
ready, the termination case is one `select` may take; it is the one taken whenever
nothing else is ready (no status pending, the retry timer not expired); and whenever
it is taken the loop returns without creating a backend and processes nothing more. -/
theorem goroutine_select_fin (st : goroutine.State) (r : goroutine.Ready)
    (hrun : st.returned = false) (hfin : r.fin = true) :
    goroutine.select st r { st with returned := true } ∧
    (∀ st1 : goroutine.State, r.status = none →
      (st.timerArmed = false ∨ r.expired = false) →
      goroutine.select st r st1 → st1 = { st with returned := true }) ∧
    (∀ st1 : goroutine.State, goroutine.select st r st1 → st1.returned = true →
      st1 = { st with returned := true } ∧ st1.starts = st.starts ∧
      st1.sysdep = st.sysdep ∧ ∀ evs : List goroutine.Event, goroutine.run st1 evs = some st1) := by
  refine ⟨⟨goroutine.Event.fin, hfin, rfl⟩, ?_, ?_⟩
  · rintro st1 hstatus htimer ⟨ev, hcan, hiter⟩
    cases ev with
    | fin => exact (Option.some.inj hiter).symm
    | status s =>
      have hs : r.status = some s := hcan
      rw [hstatus] at hs
      exact absurd hs (by simp)
    | timer =>
      have ht : st.timerArmed = true ∧ r.expired = true := hcan
      rcases htimer with h | h
      · rw [ht.1] at h
        exact absurd h (by simp)
      · rw [ht.2] at h
        exact absurd h (by simp)
  · rintro st1 ⟨ev, _, hiter⟩ hret1
    have hst1 : st1 = { st with returned := true } := by
      cases ev with
      | fin => exact (Option.some.inj hiter).symm
      | status s =>
        have hkeep : ∀ (t : goroutine.State × Bool), (goroutine.finish t).returned
            = t.1.returned := by
          intro t
          unfold goroutine.finish
          split <;> rfl
        have hon : (goroutine.onStatus st s).1.returned = st.returned := by
          unfold goroutine.onStatus
          split
          · split <;> rfl
          · split
            · rfl
            · split <;> rfl
        have h1 : st1.returned = st.returned := by
          have := Option.some.inj hiter
          rw [← this, hkeep, hon]
        rw [hret1, hrun] at h1
        exact absurd h1 (by simp)
      | timer =>
        cases hinst : st.publisher.instance st.suffix with
        | none => simp [goroutine.iter, goroutine.onTimer, hinst] at hiter
        | some name =>
          rw [goroutine_iter_timer st name hinst] at hiter
          have h1 : st1.returned = st.returned := by
            rw [← Option.some.inj hiter]
          rw [hret1, hrun] at h1
          exact absurd h1 (by simp)
    refine ⟨hst1, by rw [hst1], by rw [hst1], ?_⟩
    intro evs
    exact goroutine_run_returned st1 evs hret1

/-- Witness of the amended C15: after a Failure on `"Printer"`, with the retry timer armed
but not expired and `publisher.fin` closed, `select` takes the termination case. -/
theorem goroutine_select_fin_witness :
    goroutine.select
      (goroutine.State.mk
        (DNSSdPublisher.mk (DevState.mk (GoString.ofString "Printer")
          (GoString.ofString "Printer")))
        0 (GoString.ofString "Printer (USB)") (GoString.ofString "Printer (USB)") 0 1 0 1
        true false)
      (goroutine.Ready.mk true none false)
      (goroutine.State.mk
        (DNSSdPublisher.mk (DevState.mk (GoString.ofString "Printer")
          (GoString.ofString "Printer")))
        0 (GoString.ofString "Printer (USB)") (GoString.ofString "Printer (USB)") 0 1 0 1
        true true) :=
  (goroutine_select_fin
    (goroutine.State.mk
      (DNSSdPublisher.mk (DevState.mk (GoString.ofString "Printer")
        (GoString.ofString "Printer")))
      0 (GoString.ofString "Printer (USB)") (GoString.ofString "Printer (USB)") 0 1 0 1
      true false)
    (goroutine.Ready.mk true none false) rfl rfl).1

/-- C16: the handling of a Success in any loop state. If the current name differs from
`DNSSdOverride`, it is stored there and `Save()` is called once; if not, `DNSSdOverride`
is unchanged and `Save()` is not called. In both cases `DNSSdOverride` is the current
name afterwards, `suffix` and `DNSSdName` are unchanged, the backend is not halted and
the retry timer is not armed. -/
theorem goroutine_success_handling (st : goroutine.State) :
    ∃ st1 : goroutine.State,
      goroutine.iter st (goroutine.Event.status DNSSdSuccess) = some st1 ∧
      (st.inst ≠ st.publisher.DevState.DNSSdOverride →
        st1.publisher.DevState.DNSSdOverride = st.inst ∧ st1.saves = st.saves + 1) ∧
      (st.inst = st.publisher.DevState.DNSSdOverride →
        st1.publisher.DevState.DNSSdOverride = st.publisher.DevState.DNSSdOverride ∧
        st1.saves = st.saves) ∧
      st1.publisher.DevState.DNSSdOverride = st1.inst ∧
      st1.inst = st.inst ∧ st1.sysdep = st.sysdep ∧ st1.suffix = st.suffix ∧
      st1.publisher.DevState.DNSSdName = st.publisher.DevState.DNSSdName ∧
      st1.halts = st.halts ∧ st1.starts = st.starts ∧ st1.resets = st.resets ∧
      st1.timerArmed = st.timerArmed ∧ st1.returned = st.returned := by
  refine ⟨_, goroutine_iter_success st, ?_⟩
  by_cases h : st.inst = st.publisher.DevState.DNSSdOverride
  · have hn : ¬ (st.inst ≠ st.publisher.DevState.DNSSdOverride) := fun hne => hne h
    rw [if_neg hn]
    exact ⟨fun hne => absurd h hne, fun _ => ⟨rfl, rfl⟩, h.symm, rfl, rfl, rfl, rfl, rfl,
      rfl, rfl, rfl, rfl⟩
  · rw [if_pos h]
    exact ⟨fun _ => ⟨rfl, rfl⟩, fun he => absurd he h, rfl, rfl, rfl, rfl, rfl, rfl,
      rfl, rfl, rfl, rfl⟩

/-- C17, amended: `suffix` starts at 0 and is incremented by exactly 1 by each Collision
and by nothing else, as long as it does not overflow: after any sequence of Success,
Collision, Failure, unknown statuses and retry-timer firings that holds fewer than
`2^63` Collision events, `suffix` is the number of Collision events of the sequence. -/
theorem goroutine_suffix_counts_collisions (publisher : DNSSdPublisher)
    (evs : List goroutine.Event) (hfin : goroutine.Event.fin ∉ evs)
    (hlt : (goroutine.collisions evs : Int) < 2 ^ 63) :
    ∃ st : goroutine.State, publisher.goroutine evs = some st ∧
      st.suffix = (goroutine.collisions evs : Int) := by
  obtain ⟨name0, _, hinit⟩ := goroutine_init_eq publisher
  obtain ⟨st, hrun, hsuf, _⟩ := goroutine_run_suffix evs
    (goroutine.State.mk publisher 0 name0 name0 0 0 0 0 false false)
    (le_refl _) rfl hfin (by simpa using hlt)
  refine ⟨st, ?_, by simpa using hsuf⟩
  simp only [DNSSdPublisher.goroutine, hinit, hrun]

/-- Witness of the amended C17: Success, Collision, Failure, retry, unknown status, Collision,
retry: `suffix` ends at 2; with no event at all it is 0. -/
theorem goroutine_suffix_counts_collisions_witness :
    (∃ st : goroutine.State,
      DNSSdPublisher.goroutine
          (DNSSdPublisher.mk (DevState.mk (GoString.ofString "Printer")
            (GoString.ofString "Printer")))
          [goroutine.Event.status DNSSdSuccess, goroutine.Event.status DNSSdCollision,
            goroutine.Event.status DNSSdFailure, goroutine.Event.timer,
            goroutine.Event.status DNSSdNoStatus, goroutine.Event.status DNSSdCollision,
            goroutine.Event.timer] = some st ∧
      st.suffix = 2) ∧
    (∃ st : goroutine.State,
      DNSSdPublisher.goroutine
          (DNSSdPublisher.mk (DevState.mk (GoString.ofString "Printer")
            (GoString.ofString "Printer"))) [] = some st ∧
      st.suffix = 0) :=
  ⟨goroutine_suffix_counts_collisions
    (DNSSdPublisher.mk (DevState.mk (GoString.ofString "Printer")
      (GoString.ofString "Printer")))
    [goroutine.Event.status DNSSdSuccess, goroutine.Event.status DNSSdCollision,
      goroutine.Event.status DNSSdFailure, goroutine.Event.timer,
      goroutine.Event.status DNSSdNoStatus, goroutine.Event.status DNSSdCollision,
      goroutine.Event.timer] (by decide) (by decide),
   goroutine_suffix_counts_collisions
    (DNSSdPublisher.mk (DevState.mk (GoString.ofString "Printer")
      (GoString.ofString "Printer"))) [] (by decide) (by decide)⟩

/-- C18: an unknown status causes no state transition. For every loop state and every
status other than Success, Collision and Failure, the iteration leaves the whole state
as it was: `suffix`, the current name, `DNSSdName`, `DNSSdOverride` and the number of
`Save()` calls are unchanged, the backend is not halted and the timer is not armed. -/
theorem goroutine_unknown_status_no_change (st : goroutine.State) (status : DNSSdStatus)
    (h3 : status ≠ DNSSdSuccess) (h1 : status ≠ DNSSdCollision)
    (h2 : status ≠ DNSSdFailure) :
    goroutine.iter st (goroutine.Event.status status) = some st := by
  simp [goroutine.iter, goroutine.onStatus, goroutine.finish, h1, h2, h3]

/-- Witness of C18: `DNSSdNoStatus` and the out-of-range status `-1` in a state with the
retry timer armed. -/
theorem goroutine_unknown_status_no_change_witness :
    goroutine.iter
        (goroutine.State.mk
          (DNSSdPublisher.mk (DevState.mk (GoString.ofString "Printer")
            (GoString.ofString "Printer")))
          1 (GoString.ofString "Printer (USB)") (GoString.ofString "Printer (USB)") 0 1 0 1
          true false)
        (goroutine.Event.status DNSSdNoStatus)
      = some (goroutine.State.mk
          (DNSSdPublisher.mk (DevState.mk (GoString.ofString "Printer")
            (GoString.ofString "Printer")))
          1 (GoString.ofString "Printer (USB)") (GoString.ofString "Printer (USB)") 0 1 0 1
          true false) ∧
    goroutine.iter
        (goroutine.State.mk
          (DNSSdPublisher.mk (DevState.mk (GoString.ofString "Printer")
            (GoString.ofString "Printer")))
          1 (GoString.ofString "Printer (USB)") (GoString.ofString "Printer (USB)") 0 1 0 1
          true false)
        (goroutine.Event.status (-1))
      = some (goroutine.State.mk
          (DNSSdPublisher.mk (DevState.mk (GoString.ofString "Printer")
            (GoString.ofString "Printer")))
          1 (GoString.ofString "Printer (USB)") (GoString.ofString "Printer (USB)") 0 1 0 1
          true false) :=
  ⟨goroutine_unknown_status_no_change _ DNSSdNoStatus (by decide) (by decide) (by decide),
   goroutine_unknown_status_no_change _ (-1) (by decide) (by decide) (by decide)⟩

/-! ## Stability and distinctness of instance names -/

/-- With `DNSSdOverride != DNSSdName`, `instance(0)` is `DNSSdOverride` cut to 63
bytes. -/
theorem instance_zero_override (publisher : DNSSdPublisher)
    (h : publisher.DevState.DNSSdOverride ≠ publisher.DevState.DNSSdName) :
    publisher.instance 0 = some (publisher.DevState.DNSSdOverride.take 63) := by
  have hparts : DNSSdPublisher.instance.parts publisher 0
      = (publisher.DevState.DNSSdOverride, []) := by
    unfold DNSSdPublisher.instance.parts
    rw [if_neg (by simp), if_neg (fun he => h he.symm)]
  have heq := instance_eq_take_append publisher 0 (by rw [hparts]; simp)
  rw [hparts] at heq
  simpa using heq

/-- C19 as stated fails: with a `DNSSdName` of 63 bytes that ends in ` (USB 1)`,
`instance(1)` is `DNSSdName` itself; once the Success handler has stored it in
`DNSSdOverride`, the state reads as a first run and `instance(0)` cuts the name to 57
bytes and appends ` (USB)`, which is another name. -/
theorem instance_not_stable_when_name_published :
    DNSSdPublisher.instance
        (DNSSdPublisher.mk (DevState.mk
          (List.replicate 55 120 ++ GoString.ofString " (USB 1)") (GoString.ofString "x"))) 1
      = some (List.replicate 55 120 ++ GoString.ofString " (USB 1)") ∧
    (DNSSdPublisher.goroutine
        (DNSSdPublisher.mk (DevState.mk
          (List.replicate 55 120 ++ GoString.ofString " (USB 1)") (GoString.ofString "x")))
        [goroutine.Event.status DNSSdCollision, goroutine.Event.timer,
          goroutine.Event.status DNSSdSuccess]).map
      (fun st => (st.publisher.DevState, st.publisher.instance 0))
      = some (DevState.mk (List.replicate 55 120 ++ GoString.ofString " (USB 1)")
            (List.replicate 55 120 ++ GoString.ofString " (USB 1)"),
          some (List.replicate 55 120 ++ GoString.ofString " ( (USB)")) ∧
    List.replicate 55 120 ++ GoString.ofString " ( (USB)"
      ≠ List.replicate 55 120 ++ GoString.ofString " (USB 1)" := by
  decide

/-- C19, amended: for every loop state and every Go `int` suffix `s`, if the current
name `n = instance(s)` differs from `DNSSdName`, then after the Success handler
`DNSSdOverride` is `n`, `DNSSdName` is unchanged, and `instance(0)` on the updated
state returns exactly `n`. -/
theorem instance_stable_after_success (st : goroutine.State) (s : Int) (n : GoString)
    (hs : IsGoInt s) (hn : st.publisher.instance s = some n) (hcur : st.inst = n)
    (hne : n ≠ st.publisher.DevState.DNSSdName) :
    ∃ st1 : goroutine.State,
      goroutine.iter st (goroutine.Event.status DNSSdSuccess) = some st1 ∧
      st1.publisher.DevState.DNSSdOverride = n ∧
      st1.publisher.DevState.DNSSdName = st.publisher.DevState.DNSSdName ∧
      st1.publisher.instance 0 = some n := by
  obtain ⟨n1, hn1, hlen⟩ := instance_some_of_isGoInt st.publisher s hs
  have hnn : n1 = n := Option.some.inj (hn1.symm.trans hn)
  rw [hnn] at hlen
  have key : ∀ p : DNSSdPublisher, p.DevState.DNSSdOverride = n →
      p.DevState.DNSSdName = st.publisher.DevState.DNSSdName → p.instance 0 = some n := by
    intro p hov hname
    rw [instance_zero_override p (by rw [hov, hname]; exact hne), hov,
      List.take_of_length_le hlen]
  refine ⟨_, goroutine_iter_success st, ?_⟩
  by_cases h : st.inst = st.publisher.DevState.DNSSdOverride
  · have hnot : ¬ (st.inst ≠ st.publisher.DevState.DNSSdOverride) := fun hne1 => hne1 h
    rw [if_neg hnot]
    exact ⟨h.symm.trans hcur, rfl, key st.publisher (h.symm.trans hcur) rfl⟩
  · rw [if_pos h]
    exact ⟨hcur, rfl, key _ hcur rfl⟩

/-- Witness of the amended C19: `"Printer (USB 1)"`, published with suffix 1, is stored
and found again by `instance(0)`. -/
theorem instance_stable_after_success_witness :
    ∃ st1 : goroutine.State,
      goroutine.iter
          (goroutine.State.mk
            (DNSSdPublisher.mk (DevState.mk (GoString.ofString "Printer")
              (GoString.ofString "Printer")))
            1 (GoString.ofString "Printer (USB 1)") (GoString.ofString "Printer (USB 1)")
            0 1 1 1 false false)
          (goroutine.Event.status DNSSdSuccess) = some st1 ∧
      st1.publisher.DevState.DNSSdOverride = GoString.ofString "Printer (USB 1)" ∧
      st1.publisher.DevState.DNSSdName = GoString.ofString "Printer" ∧
      st1.publisher.instance 0 = some (GoString.ofString "Printer (USB 1)") :=
  instance_stable_after_success
    (goroutine.State.mk
      (DNSSdPublisher.mk (DevState.mk (GoString.ofString "Printer")
        (GoString.ofString "Printer")))
      1 (GoString.ofString "Printer (USB 1)") (GoString.ofString "Printer (USB 1)")
      0 1 1 1 false false)
    1 (GoString.ofString "Printer (USB 1)") (by decide) (by decide) rfl (by decide)

/-- The digits `Nat.toDigitsCore` produces in base 10, with enough fuel, are those of
`Nat.digits`, most significant first. -/
theorem toDigitsCore_eq_digits (fuel : Nat) :
    ∀ (n : Nat) (ds : List Char), 0 < n → n < fuel →
      Nat.toDigitsCore 10 fuel n ds
        = ((Nat.digits 10 n).reverse.map Nat.digitChar) ++ ds := by
  induction fuel with
  | zero =>
    intro n ds _ hlt
    exact absurd hlt (Nat.not_lt_zero n)
  | succ fuel ih =>
    intro n ds hpos hlt
    have hdig : Nat.digits 10 n = (n % 10) :: Nat.digits 10 (n / 10) :=
      Nat.digits_def' (by decide) hpos
    by_cases hq : n / 10 = 0
    · simp [Nat.toDigitsCore, hq, hdig]
    · have hqpos : 0 < n / 10 := Nat.pos_of_ne_zero hq
      have hqlt : n / 10 < fuel := by omega
      simp only [Nat.toDigitsCore, hq, if_false]
      rw [ih (n / 10) (Nat.digitChar (n % 10) :: ds) hqpos hqlt, hdig]
      simp

/-- For a positive number `%d` prints the bytes of its decimal digits, most
significant first. -/
theorem Sprintf_d_pos (s : Int) (h : 0 < s) :
    fmt.Sprintf_d s
      = ((Nat.digits 10 s.toNat).map (fun d => (Nat.digitChar d).toUInt8)).reverse := by
  cases s with
  | ofNat m =>
    have hm : 0 < m := by
      rw [Int.ofNat_eq_coe] at h
      omega
    have htn : (Int.ofNat m).toNat = m := rfl
    rw [htn]
    simp only [fmt.Sprintf_d, Nat.toDigits]
    rw [toDigitsCore_eq_digits (m + 1) m [] hm (Nat.lt_succ_self m)]
    simp [List.map_reverse]
  | negSucc m => exact absurd h (by simp [Int.negSucc_not_pos])

/-- The bytes of the ten decimal digits are distinct, and none of them is a space. -/
theorem digit_byte_facts :
    (∀ d : Nat, d < 10 → (Nat.digitChar d).toUInt8 ≠ 32) ∧
    (∀ d : Nat, d < 10 → ∀ e : Nat, e < 10 →
      (Nat.digitChar d).toUInt8 = (Nat.digitChar e).toUInt8 → d = e) := by
  decide

/-- Two lists of decimal digits with the same bytes are the same list. -/
theorem digits_eq_of_bytes_eq (l1 : List Nat) :
    ∀ l2 : List Nat, (∀ d ∈ l1, d < 10) → (∀ d ∈ l2, d < 10) →
      l1.map (fun d => (Nat.digitChar d).toUInt8)
        = l2.map (fun d => (Nat.digitChar d).toUInt8) → l1 = l2 := by
  induction l1 with
  | nil =>
    intro l2 _ _ h
    cases l2 with
    | nil => rfl
    | cons b l2 => simp at h
  | cons a l1 ih =>
    intro l2 h1 h2 h
    cases l2 with
    | nil => simp at h
    | cons b l2 =>
      simp only [List.map_cons, List.cons.injEq] at h
      have hab : a = b := digit_byte_facts.2 a (h1 a (List.mem_cons_self _ _)) b
        (h2 b (List.mem_cons_self _ _)) h.1
      have htl : l1 = l2 := ih l2 (fun d hd => h1 d (List.mem_cons_of_mem _ hd))
        (fun d hd => h2 d (List.mem_cons_of_mem _ hd)) h.2
      rw [hab, htl]

/-- The part of a byte string before the first occurrence of a byte is determined by
the string. -/
theorem prefix_before_byte_unique (c : UInt8) (a : GoString) :
    ∀ (b x y : GoString), c ∉ a → c ∉ b → a ++ c :: x = b ++ c :: y → a = b := by
  induction a with
  | nil =>
    intro b x y _ hb h
    cases b with
    | nil => rfl
    | cons b0 b =>
      simp only [List.nil_append, List.cons_append, List.cons.injEq] at h
      exact absurd (by rw [h.1]; exact List.mem_cons_self _ _) hb
  | cons a0 a ih =>
    intro b x y ha hb h
    cases b with
    | nil =>
      simp only [List.nil_append, List.cons_append, List.cons.injEq] at h
      exact absurd (by rw [← h.1]; exact List.mem_cons_self _ _) ha
    | cons b0 b =>
      simp only [List.cons_append, List.cons.injEq] at h
      have htl : a = b := ih b x y (fun hm => ha (List.mem_cons_of_mem _ hm))
        (fun hm => hb (List.mem_cons_of_mem _ hm)) h.2
      rw [h.1, htl]

/-- A name built with a collision suffix, read backwards: the closing parenthesis, the
decimal digits, a space, then the rest. -/
theorem suffixed_name_reverse (p d : GoString) :
    (p ++ (GoString.ofString " (USB " ++ d ++ GoString.ofString ")")).reverse
      = 41 :: (d.reverse ++ 32 :: ([66, 83, 85, 40, 32] ++ p.reverse)) := by
  have hU : GoString.ofString " (USB " = [32, 40, 85, 83, 66, 32] := by decide
  have hC : GoString.ofString ")" = [41] := by decide
  rw [hU, hC]
  simp

/-- C20: distinct collision suffixes give distinct names, even after the cut to 63
bytes: for every persisted state and all positive Go `int` suffixes `s1 != s2`,
`instance(s1)` and `instance(s2)` are defined and differ. -/
theorem instance_distinct_suffixes (publisher : DNSSdPublisher) (s1 s2 : Int)
    (h1 : 0 < s1) (h2 : 0 < s2) (hi1 : IsGoInt s1) (hi2 : IsGoInt s2) (hne : s1 ≠ s2) :
    publisher.instance s1 ≠ publisher.instance s2 ∧
    ∃ n1 n2 : GoString, publisher.instance s1 = some n1 ∧
      publisher.instance s2 = some n2 ∧ n1 ≠ n2 := by
  have hparts : ∀ s : Int, 0 < s → DNSSdPublisher.instance.parts publisher s
      = (publisher.DevState.DNSSdName,
          GoString.ofString " (USB " ++ fmt.Sprintf_d s ++ GoString.ofString ")") := by
    intro s hs
    unfold DNSSdPublisher.instance.parts
    rw [if_pos (ne_of_gt hs)]
  have hform : ∀ s : Int, 0 < s → IsGoInt s → ∃ p : GoString,
      publisher.instance s = some (p ++ (GoString.ofString " (USB "
        ++ ((Nat.digits 10 s.toNat).map (fun d => (Nat.digitChar d).toUInt8)).reverse
        ++ GoString.ofString ")")) := by
    intro s hs hi
    have hlen := instance_parts_suffix_length_le publisher s hi
    have heq := instance_eq_take_append publisher s (by omega)
    rw [hparts s hs, Sprintf_d_pos s hs] at heq
    exact ⟨_, heq⟩
  have hnosp : ∀ m : Nat,
      (32 : UInt8) ∉ (Nat.digits 10 m).map (fun d => (Nat.digitChar d).toUInt8) := by
    intro m hmem
    obtain ⟨d, hd, hd32⟩ := List.mem_map.mp hmem
    exact digit_byte_facts.1 d (Nat.digits_lt_base (by decide) hd) hd32
  obtain ⟨p1, hp1⟩ := hform s1 h1 hi1
  obtain ⟨p2, hp2⟩ := hform s2 h2 hi2
  have hdiff : p1 ++ (GoString.ofString " (USB "
        ++ ((Nat.digits 10 s1.toNat).map (fun d => (Nat.digitChar d).toUInt8)).reverse
        ++ GoString.ofString ")")
      ≠ p2 ++ (GoString.ofString " (USB "
        ++ ((Nat.digits 10 s2.toNat).map (fun d => (Nat.digitChar d).toUInt8)).reverse
        ++ GoString.ofString ")") := by
    intro heq
    have hrev := congrArg List.reverse heq
    rw [suffixed_name_reverse, suffixed_name_reverse, List.reverse_reverse,
      List.reverse_reverse] at hrev
    have htail := (List.cons.inj hrev).2
    have hbytes := prefix_before_byte_unique 32 _ _ _ _ (hnosp s1.toNat) (hnosp s2.toNat)
      htail
    have hdigits := digits_eq_of_bytes_eq _ _
      (fun d hd => Nat.digits_lt_base (by decide) hd)
      (fun d hd => Nat.digits_lt_base (by decide) hd) hbytes
    have hnat : s1.toNat = s2.toNat := Nat.digits_inj_iff.mp hdigits
    exact hne (by omega)
  refine ⟨?_, _, _, hp1, hp2, hdiff⟩
  rw [hp1, hp2]
  exact fun h => hdiff (Option.some.inj h)

/-- Witness of C20: suffixes 9 and 10 on a base name of 70 bytes, which is cut to 55
and to 54 bytes. -/
theorem instance_distinct_suffixes_witness :
    DNSSdPublisher.instance
        (DNSSdPublisher.mk (DevState.mk (List.replicate 70 120) (List.replicate 70 120))) 9
      ≠ DNSSdPublisher.instance
        (DNSSdPublisher.mk (DevState.mk (List.replicate 70 120) (List.replicate 70 120))) 10 :=
  (instance_distinct_suffixes
    (DNSSdPublisher.mk (DevState.mk (List.replicate 70 120) (List.replicate 70 120)))
    9 10 (by decide) (by decide) (by decide) (by decide) (by decide)).1

/-! ## The suffix counter at the end of its range -/

/-- A run of `n` Collision events alone: `suffix` has grown by `n`, with the wrap-around
of a Go `int`. -/
theorem goroutine_run_collisions_wrap (n : Nat) :
    ∀ st : goroutine.State, st.returned = false → IsGoInt st.suffix →
      ∃ st1 : goroutine.State,
        goroutine.run st (List.replicate n (goroutine.Event.status DNSSdCollision))
          = some st1 ∧
        st1.suffix = GoInt.wrap (st.suffix + (n : Int)) := by
  induction n with
  | zero =>
    intro st _ hs
    refine ⟨st, rfl, ?_⟩
    rw [Int.ofNat_zero, Int.add_zero, GoInt_wrap_eq _ hs]
  | succ n ih =>
    intro st hret hs
    obtain ⟨publisher, suffix, inst, sysdep, saves, halts, starts, resets, timerArmed,
      returned⟩ := st
    simp only at hret hs
    subst hret
    obtain ⟨st2, hrun, hsuf⟩ := ih
      (goroutine.State.mk publisher (GoInt.wrap (suffix + 1)) inst sysdep saves (halts + 1)
        starts (resets + 1) true false) rfl (GoInt_wrap_isGoInt _)
    refine ⟨st2, ?_, ?_⟩
    · simp only [List.replicate_succ, goroutine.run, goroutine_iter_collision, hrun,
        Bool.false_eq_true, if_false]
    · rw [hsuf]
      simp only [GoInt.wrap]
      push_cast
      omega

/-- C17 as stated fails: `suffix` is a Go `int` and `suffix++` wraps around. One
Collision in a state with `suffix = 2^63 - 1` leaves `suffix = -2^63`, a decrease; and
from the entry of the loop, after `2^63` Collision events `suffix` is `-2^63`, not the
number `2^63` of Collision events. -/
theorem goroutine_suffix_wraps_around :
    (goroutine.iter
        (goroutine.State.mk
          (DNSSdPublisher.mk (DevState.mk (GoString.ofString "Printer")
            (GoString.ofString "Printer")))
          9223372036854775807 (GoString.ofString "Printer (USB)")
          (GoString.ofString "Printer (USB)") 0 0 0 0 false false)
        (goroutine.Event.status DNSSdCollision)).map (fun st => st.suffix)
      = some (-9223372036854775808) ∧
    goroutine.Event.fin ∉ List.replicate (2 ^ 63) (goroutine.Event.status DNSSdCollision) ∧
    goroutine.collisions (List.replicate (2 ^ 63) (goroutine.Event.status DNSSdCollision))
      = 2 ^ 63 ∧
    ∃ st : goroutine.State,
      DNSSdPublisher.goroutine
          (DNSSdPublisher.mk (DevState.mk (GoString.ofString "Printer")
            (GoString.ofString "Printer")))
          (List.replicate (2 ^ 63) (goroutine.Event.status DNSSdCollision)) = some st ∧
      st.suffix = -2 ^ 63 ∧
      st.suffix ≠ (goroutine.collisions
        (List.replicate (2 ^ 63) (goroutine.Event.status DNSSdCollision)) : Int) := by
  have hcount : goroutine.collisions
      (List.replicate (2 ^ 63) (goroutine.Event.status DNSSdCollision)) = 2 ^ 63 := by
    unfold goroutine.collisions
    exact List.count_replicate_self _ _
  refine ⟨by decide, ?_, hcount, ?_⟩
  · intro hmem
    have := List.eq_of_mem_replicate hmem
    exact absurd this (by simp)
  · obtain ⟨name0, _, hinit⟩ := goroutine_init_eq
      (DNSSdPublisher.mk (DevState.mk (GoString.ofString "Printer")
        (GoString.ofString "Printer")))
    obtain ⟨st, hrun, hsuf⟩ := goroutine_run_collisions_wrap (2 ^ 63)
      (goroutine.State.mk
        (DNSSdPublisher.mk (DevState.mk (GoString.ofString "Printer")
          (GoString.ofString "Printer")))
        0 name0 name0 0 0 0 0 false false) rfl (show IsGoInt 0 by decide)
    have hval : st.suffix = -2 ^ 63 := by
      rw [hsuf]
      simp only [GoInt.wrap]
      norm_num
    refine ⟨st, ?_, hval, ?_⟩
    · simp only [DNSSdPublisher.goroutine, hinit, hrun]
    · rw [hval, hcount]
      norm_num

/-! ## Renaming after a collision -/

/-- For a number other than 0, `%d` prints a `-` if it is negative, then the bytes of
the decimal digits of its absolute value, most significant first. -/
theorem Sprintf_d_nonzero (s : Int) (h : s ≠ 0) :
    fmt.Sprintf_d s
      = (if s < 0 then [45] else [])
        ++ ((Nat.digits 10 s.natAbs).map (fun d => (Nat.digitChar d).toUInt8)).reverse := by
  cases s with
  | ofNat m =>
    have hm : 0 < m := by
      rcases Nat.eq_zero_or_pos m with h0 | h0
      · exact absurd (by rw [h0]; rfl) h
      · exact h0
    have hnn : ¬ (Int.ofNat m < 0) := by
      rw [Int.ofNat_eq_coe]
      omega
    have hab : (Int.ofNat m).natAbs = m := rfl
    rw [if_neg hnn, hab, List.nil_append]
    simp only [fmt.Sprintf_d, Nat.toDigits]
    rw [toDigitsCore_eq_digits (m + 1) m [] hm (Nat.lt_succ_self m)]
    simp [List.map_reverse]
  | negSucc m =>
    have hneg : Int.negSucc m < 0 := Int.negSucc_lt_zero m
    have hab : (Int.negSucc m).natAbs = m + 1 := rfl
    rw [if_pos hneg, hab]
    simp only [fmt.Sprintf_d, Nat.toDigits]
    rw [toDigitsCore_eq_digits (m + 1 + 1) (m + 1) [] (Nat.succ_pos m)
      (Nat.lt_succ_self (m + 1))]
    simp [List.map_reverse]

/-- None of the bytes of the ten decimal digits is a `-`. -/
theorem digit_byte_ne_minus :
    ∀ d : Nat, d < 10 → (Nat.digitChar d).toUInt8 ≠ 45 := by
  decide

/-- Different numbers other than 0 are printed differently by `%d`, and the text has no
space. -/
theorem Sprintf_d_nonzero_facts (a b : Int) (ha : a ≠ 0) (hb : b ≠ 0) :
    (32 : UInt8) ∉ fmt.Sprintf_d a ∧ (fmt.Sprintf_d a = fmt.Sprintf_d b → a = b) := by
  have hdig : ∀ (m : Nat) (c : UInt8),
      c ∈ ((Nat.digits 10 m).map (fun d => (Nat.digitChar d).toUInt8)).reverse →
      c ≠ 32 ∧ c ≠ 45 := by
    intro m c hc
    obtain ⟨d, hd, hdc⟩ := List.mem_map.mp (List.mem_reverse.mp hc)
    have hlt : d < 10 := Nat.digits_lt_base (by decide) hd
    rw [← hdc]
    exact ⟨digit_byte_facts.1 d hlt, digit_byte_ne_minus d hlt⟩
  have hinj : ∀ m1 m2 : Nat,
      ((Nat.digits 10 m1).map (fun d => (Nat.digitChar d).toUInt8)).reverse
        = ((Nat.digits 10 m2).map (fun d => (Nat.digitChar d).toUInt8)).reverse →
      m1 = m2 := by
    intro m1 m2 h
    have h' := List.reverse_injective h
    exact Nat.digits_inj_iff.mp (digits_eq_of_bytes_eq _ _
      (fun d hd => Nat.digits_lt_base (by decide) hd)
      (fun d hd => Nat.digits_lt_base (by decide) hd) h')
  constructor
  · rw [Sprintf_d_nonzero a ha]
    intro hmem
    rcases List.mem_append.mp hmem with h1 | h1
    · split at h1
      · simp at h1
      · simp at h1
    · exact (hdig _ _ h1).1 rfl
  · rw [Sprintf_d_nonzero a ha, Sprintf_d_nonzero b hb]
    intro heq
    by_cases han : a < 0
    · by_cases hbn : b < 0
      · rw [if_pos han, if_pos hbn] at heq
        have := hinj _ _ (List.append_cancel_left heq)
        omega
      · rw [if_pos han, if_neg hbn, List.nil_append] at heq
        have hmem : (45 : UInt8)
            ∈ ((Nat.digits 10 b.natAbs).map (fun d => (Nat.digitChar d).toUInt8)).reverse := by
          rw [← heq]
          simp
        exact absurd rfl (hdig _ _ hmem).2
    · by_cases hbn : b < 0
      · rw [if_neg han, if_pos hbn, List.nil_append] at heq
        have hmem : (45 : UInt8)
            ∈ ((Nat.digits 10 a.natAbs).map (fun d => (Nat.digitChar d).toUInt8)).reverse := by
          rw [heq]
          simp
        exact absurd rfl (hdig _ _ hmem).2
      · rw [if_neg han, if_neg hbn] at heq
        have := hinj _ _ (List.append_cancel_left heq)
        omega

/-- For a Go `int` suffix other than 0, `instance` returns a prefix of `DNSSdName`
followed by the whole suffix text. -/
theorem instance_nonzero_form (publisher : DNSSdPublisher) (s : Int) (hne : s ≠ 0)
    (hi : IsGoInt s) :
    ∃ p : GoString, publisher.instance s
      = some (p ++ (GoString.ofString " (USB " ++ fmt.Sprintf_d s ++ GoString.ofString ")")) := by
  have hparts : DNSSdPublisher.instance.parts publisher s
      = (publisher.DevState.DNSSdName,
          GoString.ofString " (USB " ++ fmt.Sprintf_d s ++ GoString.ofString ")") := by
    unfold DNSSdPublisher.instance.parts
    rw [if_pos hne]
  have hlen := instance_parts_suffix_length_le publisher s hi
  have heq := instance_eq_take_append publisher s (by omega)
  rw [hparts] at heq
  exact ⟨_, heq⟩

/-- Two Go `int` suffixes other than 0 that differ give different names. -/
theorem instance_ne_of_nonzero_suffixes (publisher : DNSSdPublisher) (a b : Int)
    (ha : a ≠ 0) (hb : b ≠ 0) (hia : IsGoInt a) (hib : IsGoInt b) (hab : a ≠ b)
    (n1 n2 : GoString) (h1 : publisher.instance a = some n1)
    (h2 : publisher.instance b = some n2) : n1 ≠ n2 := by
  obtain ⟨p1, hp1⟩ := instance_nonzero_form publisher a ha hia
  obtain ⟨p2, hp2⟩ := instance_nonzero_form publisher b hb hib
  have e1 := Option.some.inj (h1.symm.trans hp1)
  have e2 := Option.some.inj (h2.symm.trans hp2)
  rw [e1, e2]
  intro heq
  have hrev := congrArg List.reverse heq
  rw [suffixed_name_reverse, suffixed_name_reverse] at hrev
  have htail := (List.cons.inj hrev).2
  have hsa : (32 : UInt8) ∉ (fmt.Sprintf_d a).reverse := fun h =>
    (Sprintf_d_nonzero_facts a b ha hb).1 (List.mem_reverse.mp h)
  have hsb : (32 : UInt8) ∉ (fmt.Sprintf_d b).reverse := fun h =>
    (Sprintf_d_nonzero_facts b a hb ha).1 (List.mem_reverse.mp h)
  have hd := prefix_before_byte_unique 32 _ _ _ _ hsa hsb htail
  exact hab ((Sprintf_d_nonzero_facts a b ha hb).2 (List.reverse_injective hd))

/-- The first-run name `DNSSdName (USB)` is never the name built with suffix 1. -/
theorem instance_first_run_ne_suffix_one (publisher : DNSSdPublisher)
    (heq : publisher.DevState.DNSSdOverride = publisher.DevState.DNSSdName)
    (n0 n1 : GoString) (h0 : publisher.instance 0 = some n0)
    (h1 : publisher.instance 1 = some n1) : n1 ≠ n0 := by
  have hparts : DNSSdPublisher.instance.parts publisher 0
      = (publisher.DevState.DNSSdName, GoString.ofString " (USB)") := by
    unfold DNSSdPublisher.instance.parts
    rw [if_neg (by simp), if_pos heq.symm]
  have h6 : (GoString.ofString " (USB)").length = 6 := by decide
  have hz := instance_eq_take_append publisher 0 (by rw [hparts]; simp only [h6]; omega)
  rw [hparts] at hz
  obtain ⟨p, hp⟩ := instance_nonzero_form publisher 1 (by decide) (by decide)
  have e0 := Option.some.inj (h0.symm.trans hz)
  have e1 := Option.some.inj (h1.symm.trans hp)
  rw [e0, e1]
  intro hsame
  have hrev := congrArg List.reverse hsame
  have hone : fmt.Sprintf_d 1 = [49] := by decide
  have hU : GoString.ofString " (USB)" = [32, 40, 85, 83, 66, 41] := by decide
  rw [suffixed_name_reverse, hone] at hrev
  simp only [hU, List.reverse_append, List.reverse_cons, List.reverse_nil, List.nil_append,
    List.cons_append, List.singleton_append, List.cons.injEq] at hrev
  exact absurd hrev.2.1 (by decide)

/-- C12, amended: for every state of the running loop, after a Collision and the retry
timer the new backend is created with `instance(suffix + 1)`. That name differs from
the name that collided whenever the latter is `instance(suffix)` for the current
`suffix` and either `suffix >= 1` or the state is a first run (`suffix = 0` and
`DNSSdOverride == DNSSdName`). -/
theorem goroutine_collision_renames (st : goroutine.State) (hrun : st.returned = false)
    (hs : IsGoInt st.suffix) :
    ∃ st1 : goroutine.State,
      goroutine.run st [goroutine.Event.status DNSSdCollision, goroutine.Event.timer]
        = some st1 ∧
      st.publisher.instance (GoInt.wrap (st.suffix + 1)) = some st1.sysdep ∧
      st1.inst = st1.sysdep ∧ st1.starts = st.starts + 1 ∧
      (st.publisher.instance st.suffix = some st.inst →
        (1 ≤ st.suffix ∨ (st.suffix = 0 ∧
          st.publisher.DevState.DNSSdOverride = st.publisher.DevState.DNSSdName)) →
        st1.sysdep ≠ st.inst) := by
  obtain ⟨publisher, suffix, inst, sysdep, saves, halts, starts, resets, timerArmed,
    returned⟩ := st
  simp only at hrun hs
  subst hrun
  obtain ⟨name, hname, _⟩ := instance_some_of_isGoInt publisher (GoInt.wrap (suffix + 1))
    (GoInt_wrap_isGoInt _)
  have h1 : goroutine.iter
      (goroutine.State.mk publisher suffix inst sysdep saves halts starts resets timerArmed
        false) (goroutine.Event.status DNSSdCollision)
      = some (goroutine.State.mk publisher (GoInt.wrap (suffix + 1)) inst sysdep saves
          (halts + 1) starts (resets + 1) true false) := by
    rw [goroutine_iter_collision]
  have h2 : goroutine.iter
      (goroutine.State.mk publisher (GoInt.wrap (suffix + 1)) inst sysdep saves (halts + 1)
        starts (resets + 1) true false) goroutine.Event.timer
      = some (goroutine.State.mk publisher (GoInt.wrap (suffix + 1)) name name saves
          (halts + 1) (starts + 1) (resets + 1) false false) :=
    goroutine_iter_timer _ name hname
  refine ⟨goroutine.State.mk publisher (GoInt.wrap (suffix + 1)) name name saves
    (halts + 1) (starts + 1) (resets + 1) false false, ?_, hname, rfl, rfl, ?_⟩
  · simp only [goroutine.run, h1, h2, Bool.false_eq_true, if_false]
  · intro hcur hcase
    show name ≠ inst
    simp only at hcur hcase
    rcases hcase with hpos | ⟨hzero, hfirst⟩
    · have hw : GoInt.wrap (suffix + 1) ≠ 0 ∧ GoInt.wrap (suffix + 1) ≠ suffix := by
        unfold IsGoInt at hs
        unfold GoInt.wrap
        omega
      exact instance_ne_of_nonzero_suffixes publisher (GoInt.wrap (suffix + 1)) suffix
        hw.1 (by omega) (GoInt_wrap_isGoInt _) hs hw.2 name inst hname hcur
    · subst hzero
      have hw : GoInt.wrap (0 + 1) = 1 := by decide
      rw [hw] at hname
      exact instance_first_run_ne_suffix_one publisher hfirst inst name hcur hname

/-- Witness of the amended C12: on a first run of `"Printer"` the name `"Printer (USB)"`
collides and the retry creates the backend with another name. -/
theorem goroutine_collision_renames_witness :
    ∃ st1 : goroutine.State,
      goroutine.run
          (goroutine.State.mk
            (DNSSdPublisher.mk (DevState.mk (GoString.ofString "Printer")
              (GoString.ofString "Printer")))
            0 (GoString.ofString "Printer (USB)") (GoString.ofString "Printer (USB)")
            0 0 0 0 false false)
          [goroutine.Event.status DNSSdCollision, goroutine.Event.timer] = some st1 ∧
      st1.sysdep ≠ GoString.ofString "Printer (USB)" := by
  obtain ⟨st1, hrun, _, _, _, hne⟩ := goroutine_collision_renames
    (goroutine.State.mk
      (DNSSdPublisher.mk (DevState.mk (GoString.ofString "Printer")
        (GoString.ofString "Printer")))
      0 (GoString.ofString "Printer (USB)") (GoString.ofString "Printer (USB)")
      0 0 0 0 false false) rfl (by decide)
  exact ⟨st1, hrun, hne (by decide) (Or.inr ⟨rfl, rfl⟩)⟩
